import Mathlib

set_option linter.unusedVariables false

/-!
Verification development for the bin/location relocation service
(`src/app.py`).  The vendor HTTP platform (BaseLinker) is modelled as an
abstract environment: pure read oracles for the catalog / order / document
queries, and a stateful oracle for the line-add calls of inventory
documents.  Every remote write performed by the service is recorded in an
effect log, so that theorems can speak about which documents were created,
which lines were added, and which documents were confirmed.

Strings are Python `str`; Python string helpers (`strip`, `split(",")`,
`int(...)`, truthiness) are embedded as structural Lean functions so that
concrete runs reduce inside the kernel.  Python's stable `list.sort` is
modelled by `List.insertionSort`, which is stable and sorted for the
(total, transitive) boolean key comparisons used here, hence extensionally
equal to any stable sort, in particular CPython's.
-/

namespace BLApp

/-- Python whitespace characters relevant to `str.strip()`. -/
def pyWs (c : Char) : Bool := c = ' ' ∨ c = '\t' ∨ c = '\n' ∨ c = '\r'

/-- Models Python `s.strip()`. -/
def pyStrip (s : String) : String :=
  ⟨((s.data.dropWhile pyWs).reverse.dropWhile pyWs).reverse⟩

/-- Models Python `s.split(",")` (no merging of empty fields). -/
def splitAux (acc : List Char) : List Char → List (List Char)
  | [] => [acc.reverse]
  | c :: rest => if c = ',' then acc.reverse :: splitAux [] rest else splitAux (c :: acc) rest

def pySplitComma (s : String) : List String :=
  (splitAux [] s.data).map (fun l => ⟨l⟩)

def digitsToNat (acc : Nat) : List Char → Option Nat
  | [] => some acc
  | c :: rest => if c.isDigit then digitsToNat (acc * 10 + (c.toNat - 48)) rest else none

/-- Models `to_int` from the source on string inputs: `int(x or 0)` with the
bare `except` returning 0.  Python `int(...)` accepts surrounding
whitespace, an optional sign and decimal digits; anything else raises, which
`to_int` turns into 0. -/
def pyToInt (s : String) : Int :=
  match (pyStrip s).data with
  | [] => 0
  | '-' :: rest =>
    match rest, digitsToNat 0 rest with
    | _ :: _, some n => -(n : Int)
    | _, _ => 0
  | l =>
    match digitsToNat 0 l with
    | some n => (n : Int)
    | none => 0

/-- Python truthiness of an optional string (`None` and `""` are falsy). -/
def truthyS : Option String → Bool
  | none => false
  | some s => s ≠ ""

/-- Models Python `a or b` for optional strings (first truthy value wins,
defaulting to `""` as in the source's `(x or y or "")` chains). -/
def pyOrS (a : Option String) (b : String) : String :=
  match a with
  | some s => if s ≠ "" then s else b
  | none => b

/-- Models Python `to_int(a or b)` for two optional integers (`None` and
`0` are falsy). -/
def pyOrI (a b : Option Int) : Int :=
  match a with
  | some x => if x ≠ 0 then x else (match b with | some y => y | none => 0)
  | none => match b with | some y => y | none => 0

/-- Code-point lexicographic comparison of strings, as Python compares
`str` values. -/
def lexLeChars : List Char → List Char → Bool
  | [], _ => true
  | _ :: _, [] => false
  | a :: as, b :: bs => if a = b then lexLeChars as bs else a < b

def strLe (a b : String) : Bool := lexLeChars a.data b.data

def strLt (a b : String) : Bool := strLe a b && a ≠ b

/-! ## Data model -/

/-- One line of an inventory document, as assembled by the service before a
`addInventoryDocumentItems` call.  Absent dictionary keys are `none`.
Prices are carried opaquely (the service never computes with them); JSON
numbers are modelled as rationals. -/
structure Line where
  product_id : Int
  quantity : Int
  location_name : Option String := none
  expiry_date : Option String := none
  price : Option ℚ := none
  batch : Option String := none
  purchase_price : Option ℚ := none
deriving DecidableEq

/-- The attribute fields of an ERP (batch) unit that `build_erp_line_base`
reads (`expiry_date`, `price`, `batch`). -/
structure UnitAttrs where
  expiry_date : Option String := none
  price : Option ℚ := none
  batch : Option String := none
deriving DecidableEq

/-- A normalised ERP unit as produced by `get_erp_units_for_product`:
the attribute dictionary plus the `qty` field. -/
structure ErpUnit where
  attrs : UnitAttrs
  qty : Int
deriving DecidableEq

/-- A raw ERP unit as returned by `getInventoryProductsData` before the
normalisation loop. -/
structure RawUnit where
  price : Option ℚ := none
  expiry_date : Option String := none
  batch : Option String := none
  quantity : Option Int := none
  qty : Option Int := none
deriving DecidableEq

/-- An order line from a `getOrders` response (`order["products"]`). -/
structure OrderItem where
  sku : Option String := none
  product_sku : Option String := none
  ean : Option String := none
  product_ean : Option String := none
  name : Option String := none
  product_name : Option String := none
  quantity : Option Int := none
  qty : Option Int := none
deriving DecidableEq

/-- An order record from a `getOrders` response.  `date_confirmed` is part
of the remote record but is never read by the code under verification. -/
structure BLOrder where
  order_number : String := ""
  order_id : String := ""
  date_add : Option Int := none
  date_confirmed : Option Int := none
  products : List OrderItem := []
deriving DecidableEq

/-- A catalog product as returned by `getInventoryProductsList` (first
entry of the `products` map, with `product_id` injected).  `locations` is
present only when the `include` enrichment supplied it. -/
structure LocEntry where
  name : Option String := none
deriving DecidableEq

structure CatalogProd where
  product_id : Int
  locations : Option (List LocEntry) := none
deriving DecidableEq

/-- A row of a `getInventoryDocumentsList` response. -/
structure DocRow where
  document_type : Option Int := none
  document_id : Option Int := none
  date_add : Option Int := none
  date : Option Int := none
deriving DecidableEq

/-- A row of a `getInventoryDocumentItems` response. -/
structure ItemRow where
  product_id : Option Int := none
  expiry_date : Option String := none
  price : Option ℚ := none
  batch : Option String := none
deriving DecidableEq

/-- A row of a `getInventoryLocations` response (`location_id` already
passed through `str(...)`). -/
structure LocRow where
  location_id : String
  name : Option String := none
deriving DecidableEq

/-- A `fail_reasons` entry of the transfer endpoint: a rejected line-add
with its context, or the terminal `remaining_unissued` record of a line
(the raw upstream response payload is response formatting, outside this
model). -/
inductive FailReason where
  | rejected (product_id : Int) (attempt_qty : Int) (src : Option String) (line : Line)
  | remainingUnissued (product_id : Int) (remaining : Int)
deriving DecidableEq

/-- Remote writes performed by the service, in order. -/
inductive Effect where
  | create (docType : Nat) (docId : Nat)
  | add (docId : Nat) (lines : List Line) (ok : Bool)
  | confirm (docId : Nat)
deriving DecidableEq

/-- The abstract vendor platform.  Read-only queries are pure functions of
their parameters (the service re-issues them freshly and this model treats
the remote data as fixed for the duration of one request); the line-add
call is stateful over `σ` so that acceptance may depend on what was already
added (e.g. remaining bin stock). -/
structure Env (σ : Type) where
  /-- Response to `addInventoryDocumentItems` for a document and line list:
  whether any `item_id` came back (`created` non-empty), and the next
  platform state. -/
  addCall : σ → Nat → List Line → Bool × σ
  /-- Raw `erp_units` of `getInventoryProductsData` for a product id. -/
  erpUnitsRaw : Int → List RawUnit
  /-- Pages of the `getInventoryDocumentsList` scan in
  `fetch_last_igr_unit` (page number to document rows). -/
  docsList : Nat → List DocRow
  /-- `getInventoryDocumentItems` for a document id. -/
  docItems : Int → List ItemRow
  /-- Pages of the `getOrders` scan in `resolve_order_id`. -/
  ordersPage : Nat → List BLOrder
  /-- `getOrders` filtered by an explicit `order_id`. -/
  ordersById : String → List BLOrder
  /-- First product of `getInventoryProductsList` with `filter_sku`. -/
  productBySku : String → Option CatalogProd
  /-- First product of `getInventoryProductsList` with `filter_ean`. -/
  productByEan : String → Option CatalogProd
  /-- Rows of `getInventoryLocations` for the configured warehouse. -/
  locations : List LocRow
  /-- `getInventoryDocumentsList` filtered by an explicit `document_id`
  (used by the document-inspection endpoint). -/
  docsById : Int → List DocRow

/-- Local request state: platform state, the next document id handed out
by `addInventoryDocument`, and the log of remote writes. -/
structure St (σ : Type) where
  plat : σ
  nextDoc : Nat
  log : List Effect

variable {σ : Type}

/-! ## Documents -/

/-- Models `create_document`: `addInventoryDocument` hands back a fresh
document id (remote-transport failures are outside this model). -/
def create_document (docType : Nat) (st : St σ) : Nat × St σ :=
  (st.nextDoc,
   { st with nextDoc := st.nextDoc + 1, log := st.log ++ [.create docType st.nextDoc] })

/-- Models `add_items_verbose`: one `addInventoryDocumentItems` call; the
boolean is whether the response carried any `item_id` (`created` non-empty). -/
def add_items_verbose (E : Env σ) (docId : Nat) (lines : List Line) (st : St σ) :
    Bool × St σ :=
  let (ok, p) := E.addCall st.plat docId lines
  (ok, { st with plat := p, log := st.log ++ [.add docId lines ok] })

/-- Models `confirm_document` (`setInventoryDocumentStatusConfirmed`). -/
def confirm_document (docId : Nat) (st : St σ) : St σ :=
  { st with log := st.log ++ [.confirm docId] }

/-- Models `get_location_name_by_id`: scan `getInventoryLocations` for a
matching stringified id; any failure yields `None`. -/
def get_location_name_by_id (E : Env σ) (location_id : String) : Option String :=
  match E.locations.find? (fun loc => loc.location_id = location_id) with
  | some loc => loc.name
  | none => none

/-! ## Product and ERP helpers -/

/-- Models `find_catalog_product` (truthiness of the `sku` / `ean`
arguments decides which filter is sent; the `include` enrichment only adds
response fields and is modelled as always present on the oracle's answer). -/
def find_catalog_product (E : Env σ) (sku ean : Option String) : Option CatalogProd :=
  if truthyS sku then E.productBySku (sku.getD "")
  else if truthyS ean then E.productByEan (ean.getD "")
  else none

/-- The sort key of `get_erp_units_for_product`:
`u["expiry_date"] or "9999-12-31"`. -/
def expKey (u : ErpUnit) : String :=
  match u.attrs.expiry_date with
  | some s => if s ≠ "" then s else "9999-12-31"
  | none => "9999-12-31"

/-- Normalisation of one raw ERP unit
(`to_int(u.get("quantity") or u.get("qty"))` for the quantity). -/
def normUnit (u : RawUnit) : ErpUnit :=
  { attrs := { expiry_date := u.expiry_date, price := u.price, batch := u.batch },
    qty := pyOrI u.quantity u.qty }

/-- Models `get_erp_units_for_product`: normalise, then stable-sort by
ascending `expiry_date` with `"9999-12-31"` substituted for missing dates. -/
def get_erp_units_for_product (E : Env σ) (pid : Int) : List ErpUnit :=
  List.insertionSort (fun a b => strLe (expKey a) (expKey b) = true)
    ((E.erpUnitsRaw pid).map normUnit)

/-- The internal record kept by `fetch_last_igr_unit` while scanning. -/
structure LastRec where
  doc_id : Int
  ts : Int
  expiry_date : Option String
  price : Option ℚ
  batch : String
deriving DecidableEq

/-- One document row of the `fetch_last_igr_unit` scan.  A missing
`document_type` or `document_id` raises inside the per-row `try`, which the
bare `except` swallows, skipping the row. -/
def scanDocRow (E : Env σ) (pid : Int) (latest : Option LastRec) (d : DocRow) :
    Option LastRec :=
  match d.document_type with
  | none => latest
  | some t =>
    if t ≠ 1 then latest
    else
      match d.document_id with
      | none => latest
      | some did =>
        (E.docItems did).foldl (fun acc it =>
          if it.product_id.getD 0 = pid then
            let stamp := pyOrI d.date_add d.date
            let r : LastRec :=
              { doc_id := did, ts := stamp, expiry_date := it.expiry_date,
                price := it.price, batch := pyOrS it.batch "" }
            match acc with
            | none => some r
            | some l => if stamp > l.ts then some r else acc
          else acc) latest

/-- The paginated loop of `fetch_last_igr_unit` (`while page <= 10`,
stopping on an empty page). -/
def fetchIgrPages (E : Env σ) (pid : Int) : Nat → Nat → Option LastRec → Option LastRec
  | 0, _, latest => latest
  | fuel + 1, page, latest =>
    let rows := E.docsList page
    if rows = [] then latest
    else fetchIgrPages E pid fuel (page + 1) (rows.foldl (scanDocRow E pid) latest)

/-- Models `fetch_last_igr_unit`: attributes of the most recent IGR
(`document_type = 1`) item for the product, if any. -/
def fetch_last_igr_unit (E : Env σ) (pid : Int) : Option UnitAttrs :=
  (fetchIgrPages E pid 10 1 none).map (fun l =>
    { expiry_date := l.expiry_date, price := l.price, batch := some l.batch })

/-! ## Transfer helpers -/

/-- Models `build_erp_line_base` (each optional attribute is attached only
when Python-truthy; `price` only needs to be non-`None`). -/
def build_erp_line_base (pid qty : Int) (unit : Option UnitAttrs)
    (bin_name : Option String) : Line :=
  { product_id := pid
    quantity := qty
    location_name := if truthyS bin_name then bin_name else none
    expiry_date :=
      match unit with
      | some u => if truthyS u.expiry_date then u.expiry_date else none
      | none => none
    price :=
      match unit with
      | some u => u.price
      | none => none
    batch :=
      match unit with
      | some u => if truthyS u.batch then u.batch else none
      | none => none }

/-- The ERP-unit walk shared verbatim by `issue_unallocated` and
`issue_from_bin` (the `for u in units` loop): draw
`min(remaining, u.qty)` from each unit in queue order, stop at the first
rejected add or once the remaining quantity reaches zero.  Returns the
moved total, the new state, and the trace of attempted lines with their
acceptance. -/
def erpWalk (E : Env σ) (igi : Nat) (pid : Int) (binName : Option String) :
    List ErpUnit → Int → St σ → Int × St σ × List (Line × Bool)
  | [], _, st => (0, st, [])
  | u :: us, remaining, st =>
    if remaining ≤ 0 then (0, st, [])
    else
      let take := min remaining u.qty
      if take ≤ 0 then erpWalk E igi pid binName us remaining st
      else
        let line := build_erp_line_base pid take (some u.attrs) binName
        let (ok, st1) := add_items_verbose E igi [line] st
        if ok then
          let (m, st2, tr) := erpWalk E igi pid binName us (remaining - take) st1
          (take + m, st2, (line, true) :: tr)
        else (0, st1, [(line, false)])

/-- The rejected attempts of a walk trace, as failure records. -/
def failsOfTrace (src : Option String) (tr : List (Line × Bool)) : List FailReason :=
  tr.filterMap (fun lb =>
    if lb.2 then none
    else some (.rejected lb.1.product_id lb.1.quantity src lb.1))

/-- The plain-line tail of `issue_unallocated` (`{"product_id", "quantity"}`). -/
def unallocPlain (E : Env σ) (pid qty : Int) (igi : Nat) (fails : List FailReason)
    (st : St σ) : Int × List FailReason × String × St σ :=
  let line : Line := { product_id := pid, quantity := qty }
  let (ok, st1) := add_items_verbose E igi [line] st
  if ok then (qty, fails, "unallocated_plain", st1)
  else (0, fails ++ [.rejected pid qty none line], "unallocated_failed", st1)

/-- The last-IGR fallback tail of `issue_unallocated`. -/
def unallocFallback (E : Env σ) (pid qty : Int) (igi : Nat) (fails : List FailReason)
    (st : St σ) : Int × List FailReason × String × St σ :=
  match fetch_last_igr_unit E pid with
  | some last =>
    let line := build_erp_line_base pid qty (some last) none
    let (ok, st1) := add_items_verbose E igi [line] st
    if ok then (qty, fails, "unallocated_with_last_igr", st1)
    else unallocPlain E pid qty igi (fails ++ [.rejected pid qty none line]) st1
  | none => unallocPlain E pid qty igi fails st

/-- Models `issue_unallocated`: ERP-unit walk, then last-IGR-tagged line,
then plain line.  Returns `(moved_qty, fail_records, mode_used, state)`. -/
def issue_unallocated (E : Env σ) (pid qty : Int) (igi : Nat) (st : St σ) :
    Int × List FailReason × String × St σ :=
  let units := get_erp_units_for_product E pid
  if units = [] then unallocFallback E pid qty igi [] st
  else
    let (moved, st1, tr) := erpWalk E igi pid none units qty st
    let fails := failsOfTrace none tr
    if moved ≠ 0 then (moved, fails, "unallocated_with_erp", st1)
    else unallocFallback E pid qty igi fails st1

/-- The plain-line tail of `issue_from_bin` (the literal dictionary sets
`location_name` unconditionally). -/
def binPlain (E : Env σ) (pid qty : Int) (bin_name : String) (igi : Nat)
    (fails : List FailReason) (st : St σ) : Int × List FailReason × String × St σ :=
  let line : Line := { product_id := pid, quantity := qty, location_name := some bin_name }
  let (ok, st1) := add_items_verbose E igi [line] st
  if ok then (qty, fails, "bin_plain", st1)
  else (0, fails ++ [.rejected pid qty (some bin_name) line], "bin_failed", st1)

/-- The last-IGR fallback tail of `issue_from_bin`. -/
def binFallback (E : Env σ) (pid qty : Int) (bin_name : String) (igi : Nat)
    (fails : List FailReason) (st : St σ) : Int × List FailReason × String × St σ :=
  match fetch_last_igr_unit E pid with
  | some last =>
    let line := build_erp_line_base pid qty (some last) (some bin_name)
    let (ok, st1) := add_items_verbose E igi [line] st
    if ok then (qty, fails, "bin_with_last_igr", st1)
    else binPlain E pid qty bin_name igi (fails ++ [.rejected pid qty (some bin_name) line]) st1
  | none => binPlain E pid qty bin_name igi fails st

/-- Models `issue_from_bin`:  the same strategy ladder as
`issue_unallocated`, with every line tagged with the bin name. -/
def issue_from_bin (E : Env σ) (pid qty : Int) (bin_name : String) (igi : Nat)
    (st : St σ) : Int × List FailReason × String × St σ :=
  let units := get_erp_units_for_product E pid
  if units = [] then binFallback E pid qty bin_name igi [] st
  else
    let (moved, st1, tr) := erpWalk E igi pid (some bin_name) units qty st
    let fails := failsOfTrace (some bin_name) tr
    if moved ≠ 0 then (moved, fails, "bin_with_erp", st1)
    else binFallback E pid qty bin_name igi fails st1

/-! ## Order resolution -/

/-- Python exceptions raised by the resolution helpers; the endpoint's
blanket `except Exception` turns any of them into an Internal Error
response. -/
inductive PyErr where
  | valueError (msg : String)
  | lookupError (msg : String)
deriving DecidableEq

/-- Whether a scanned order matches the needle: exact (trimmed)
order-number equality, or — for orders with an empty order-number —
identifier equality. -/
def matchesNeedle (needle : String) (o : BLOrder) : Bool :=
  let oNum := pyStrip o.order_number
  let oId := pyStrip o.order_id
  (oNum ≠ "" && oNum = needle) || (oNum = "" && oId = needle)

/-- The paginated match-collection loop of `resolve_order_id`
(`while page <= 300`, stopping on an empty page). -/
def collectMatches (E : Env σ) (needle : String) : Nat → Nat → List BLOrder
  | 0, _ => []
  | fuel + 1, page =>
    let rows := E.ordersPage page
    if rows = [] then []
    else rows.filter (matchesNeedle needle) ++ collectMatches E needle fuel (page + 1)

/-- The sort key of `resolve_order_id`:
`(to_int(o.date_add), to_int(o.order_id))`.  The confirmation timestamp is
not part of the key. -/
def orderSortKey (o : BLOrder) : Int × Int := (o.date_add.getD 0, pyToInt o.order_id)

/-- Lexicographic order on sort keys, as Python compares tuples. -/
def keyLe (p q : Int × Int) : Bool := p.1 < q.1 || (p.1 = q.1 && p.2 ≤ q.2)

/-- Models `matches.sort(key=..., reverse=True)`: a stable descending sort
(CPython's sort is stable; any stable sort computes the same list). -/
def sortMatchesDesc (ms : List BLOrder) : List BLOrder :=
  List.insertionSort (fun a b => keyLe (orderSortKey b) (orderSortKey a) = true) ms

/-- Models the `resolve_order_id` closure of `transfer_order_qty_catalog`. -/
def resolve_order_id (E : Env σ) (order_id order_number : Option String) :
    Except PyErr String :=
  if truthyS order_id then .ok (pyStrip (order_id.getD ""))
  else if ¬ truthyS order_number then .error (.valueError "Provide order_id or order_number")
  else
    let needle := pyStrip (order_number.getD "")
    let ms := collectMatches E needle 300 1
    if ms = [] then
      .error (.lookupError
        ("Order with order_number/id \x27" ++ order_number.getD "" ++ "\x27 not found"))
    else
      match sortMatchesDesc ms with
      | [] => .error (.lookupError
          ("Order with order_number/id \x27" ++ order_number.getD "" ++ "\x27 not found"))
      | m :: _ => .ok m.order_id

/-- Models `get_order_by_id_strict`. -/
def get_order_by_id_strict (E : Env σ) (oid : String) : Except PyErr BLOrder :=
  match E.ordersById oid with
  | o :: _ => .ok o
  | [] => .error (.lookupError ("Order not found by order_id " ++ oid))

/-! ## The per-line issue phase of the transfer endpoint -/

/-- A resolved order line of the transfer endpoint (`base_lines` entry). -/
structure LineSpec where
  sku : String
  product_id : Int
  qty : Int
deriving DecidableEq

/-- A `missing` entry of the transfer endpoint. -/
structure MissingRec where
  sku : String
  ean : Option String := none
deriving DecidableEq

/-- Models the resolution loop over `order["products"]` building
`base_lines`, `missing` and `skus_in_scope`. -/
def collectLines (E : Env σ) (only_skus : List String) :
    List OrderItem → List LineSpec × List MissingRec × List String
  | [] => ([], [], [])
  | it :: rest =>
    let (bs, ms, ss) := collectLines E only_skus rest
    let sku := pyStrip (pyOrS it.sku (pyOrS it.product_sku ""))
    if only_skus ≠ [] ∧ sku ∉ only_skus then (bs, ms, ss)
    else
      let qty := pyOrI it.quantity it.qty
      if qty ≤ 0 then (bs, ms, ss)
      else
        match find_catalog_product E (some sku) none with
        | none => (bs, { sku := sku, ean := it.ean } :: ms, ss)
        | some r => ({ sku := sku, product_id := r.product_id, qty := qty } :: bs, ms, sku :: ss)

/-- Python-dict update `issued_per_product[pid] = .get(pid, 0) + delta`
(insertion order preserved, first insertion fixes the position). -/
def updAList (al : List (Int × Int)) (pid delta : Int) : List (Int × Int) :=
  match al with
  | [] => [(pid, delta)]
  | (p, q) :: rest => if p = pid then (p, q + delta) :: rest else (p, q) :: updAList rest pid delta

/-- Python-dict assignment `modes_used[pid] = mode`. -/
def updAssoc (al : List (Int × String)) (pid : Int) (v : String) : List (Int × String) :=
  match al with
  | [] => [(pid, v)]
  | (p, q) :: rest => if p = pid then (p, v) :: rest else (p, q) :: updAssoc rest pid v

/-- Lookup `issued_per_product.get(pid, 0)`. -/
def getA (al : List (Int × Int)) (pid : Int) : Int :=
  match al.find? (fun pq => pq.1 = pid) with
  | some pq => pq.2
  | none => 0

/-- Accumulated state of the issue phase: the `issued_per_product` dict in
insertion order, `total_issued`, `fail_reasons`, `modes_used`, and the
request state. -/
structure PhaseSt (σ : Type) where
  issued : List (Int × Int)
  total : Int
  fails : List FailReason
  modes : List (Int × String)
  st : St σ

/-- One `issue_unallocated` step of the per-line loop: on success the
issued dict, total and mode are updated; the step's failure records are
appended in either case. -/
def stepUnalloc (E : Env σ) (igi : Nat) (pid remaining : Int) (ps : PhaseSt σ) :
    Int × PhaseSt σ :=
  let (moved, fails, mode, st1) := issue_unallocated E pid remaining igi ps.st
  if moved ≠ 0 then
    (moved,
     { issued := updAList ps.issued pid moved, total := ps.total + moved,
       fails := ps.fails ++ fails, modes := updAssoc ps.modes pid mode, st := st1 })
  else (0, { ps with fails := ps.fails ++ fails, st := st1 })

/-- The `for src in src_list` loop: first-fit over the bin list, breaking
at the first bin with a non-zero moved quantity (whose failure records are
then dropped, as in the source), otherwise appending the failure records
and moving on. -/
def binsLoop (E : Env σ) (igi : Nat) (pid : Int) :
    List String → Int → PhaseSt σ → Int × PhaseSt σ
  | [], _, ps => (0, ps)
  | src :: rest, remaining, ps =>
    if remaining ≤ 0 then (0, ps)
    else
      let (moved, fails, mode, st1) := issue_from_bin E pid remaining src igi ps.st
      if moved ≠ 0 then
        (moved,
         { issued := updAList ps.issued pid moved, total := ps.total + moved,
           fails := ps.fails, modes := updAssoc ps.modes pid mode, st := st1 })
      else binsLoop E igi pid rest remaining { ps with fails := ps.fails ++ fails, st := st1 }

/-- The body of `for line in base_lines`: optional preferred unallocated
issuance, then the bin list, then the unallocated fallback, then the
`remaining_unissued` record. -/
def runLine (E : Env σ) (prefer_unalloc : Bool) (src_list : List String) (igi : Nat)
    (ls : LineSpec) (ps0 : PhaseSt σ) : PhaseSt σ :=
  let pid := ls.product_id
  let r0 := ls.qty
  let (m1, ps1) :=
    if prefer_unalloc ∧ 0 < r0 then stepUnalloc E igi pid r0 ps0 else (0, ps0)
  let r1 := r0 - m1
  let (m2, ps2) :=
    if 0 < r1 ∧ src_list ≠ [] then binsLoop E igi pid src_list r1 ps1 else (0, ps1)
  let r2 := r1 - m2
  let (m3, ps3) :=
    if 0 < r2 ∧ ¬ prefer_unalloc then stepUnalloc E igi pid r2 ps2 else (0, ps2)
  let r3 := r2 - m3
  if 0 < r3 then { ps3 with fails := ps3.fails ++ [.remainingUnissued pid r3] } else ps3

/-- The whole issue phase: fold `runLine` over the resolved lines. -/
def issuePhase (E : Env σ) (prefer_unalloc : Bool) (src_list : List String) (igi : Nat)
    (base_lines : List LineSpec) (ps : PhaseSt σ) : PhaseSt σ :=
  base_lines.foldl (fun acc ls => runLine E prefer_unalloc src_list igi ls acc) ps

/-! ## The transfer endpoint -/

/-- An HTTP response with a typed success payload.  Body serialisation
(JSON) is outside the model. -/
structure Response (π : Type) where
  status : Nat
  error : Option String := none
  detail : Option String := none
  payload : Option π := none
deriving DecidableEq

def http_error {π : Type} (status : Nat) (msg : String) : Response π :=
  { status := status, error := some msg }

def http_error_d {π : Type} (status : Nat) (msg detail : String) : Response π :=
  { status := status, error := some msg, detail := some detail }

/-- The endpoint's blanket `except Exception` handler: every raised
exception becomes a 500 Internal Error whose detail is `str(e)`. -/
def internal500 {π : Type} (e : PyErr) : Response π :=
  { status := 500, error := some "Internal error",
    detail := some (match e with | .valueError m => m | .lookupError m => m) }

/-- Success payload of `transfer_order_qty_catalog`. -/
structure TransferPayload where
  igi_document_id : Nat
  igr_document_id : Nat
  moved_units : Int
  missing : List MissingRec
  sources_used : List String
  filtered_skus : List String
  prefer_unallocated : Bool
  modes_used : List (Int × String)
deriving DecidableEq

/-- The receipt lines: one line per issued product with positive quantity,
tagged with the destination bin name. -/
def receiptLines (al : List (Int × Int)) (dst : String) : List Line :=
  (al.filter (fun pq => pq.2 > 0)).map (fun pq =>
    { product_id := pq.1, quantity := pq.2, location_name := some dst })

/-- Phase B of the transfer endpoint (the code after `confirm_document(igi_id)`):
confirm the issue document, create the receipt (IGR) draft, add one line
per issued product for exactly the issued quantity tagged with the
destination name, and confirm — or fail with 400 if the receipt add is
rejected (the issue document stays confirmed: the cross-phase
non-atomicity of the source). -/
def receiptPhase (E : Env σ) (dst_name : String) (igi : Nat) (ps : PhaseSt σ)
    (missing : List MissingRec) (src_list skus_in_scope : List String)
    (prefer_unalloc : Bool) : Response TransferPayload × St σ :=
  let st2 := confirm_document igi ps.st
  let (igr, st3) := create_document 1 st2
  let igr_lines := receiptLines ps.issued dst_name
  let (ok, st4) := add_items_verbose E igr igr_lines st3
  if ¬ ok then
    (http_error_d 400 "IGR failed to add items." "igr-failure context", st4)
  else
    let st5 := confirm_document igr st4
    ({ status := 200,
       payload := some {
         igi_document_id := igi, igr_document_id := igr,
         moved_units := ps.total, missing := missing,
         sources_used := src_list, filtered_skus := skus_in_scope,
         prefer_unallocated := prefer_unalloc, modes_used := ps.modes } }, st5)

/-- The `try:` body of `transfer_order_qty_catalog` after parameter
parsing: resolve the order, resolve the catalog lines, run the issue
phase (Phase A), then confirm and receive (Phase B).  The `detail`
payloads of the two 400 context dumps are JSON formatting, outside the
model. -/
def transferCore (E : Env σ) (order_id_param order_number : Option String)
    (dst_name : String) (src_list only_skus : List String) (prefer_unalloc : Bool)
    (st : St σ) : Response TransferPayload × St σ :=
  match resolve_order_id E order_id_param order_number with
  | .error e => (internal500 e, st)
  | .ok oid =>
    match get_order_by_id_strict E oid with
    | .error e => (internal500 e, st)
    | .ok order =>
      if order.products = [] then (http_error 400 "Order has no products", st)
      else
        let (base_lines, missing, skus_in_scope) := collectLines E only_skus order.products
        if base_lines = [] then (http_error 400 "No transferrable items", st)
        else
          let (igi, st1) := create_document 3 st
          let ps := issuePhase E prefer_unalloc src_list igi base_lines
            { issued := [], total := 0, fails := [], modes := [], st := st1 }
          if ps.total = 0 then
            (http_error_d 400 "IGI could not issue any items" "issue-failure context", ps.st)
          else
            receiptPhase E dst_name igi ps missing src_list skus_in_scope prefer_unalloc

/-- Query parameters of the transfer endpoint (raw, pre-strip; `none` is
an absent parameter).  `key` is `args.get("key") or headers.get("X-App-Key")`.
`partRaw` is the raw value of the endpoint's unused halving-mode flag
parameter. -/
structure Query where
  key : Option String := none
  order_id : Option String := none
  order_number : Option String := none
  dst : Option String := none
  dst_name : Option String := none
  src_names : Option String := none
  only_skus : Option String := none
  partRaw : Option String := none
  prefer_unallocated : Option String := none
deriving DecidableEq

/-- Models `(request.args.get(x) or "").strip().lower() in ("1","true","yes")`. -/
def pyLower (s : String) : String := ⟨s.data.map Char.toLower⟩

def parseFlag (v : Option String) : Bool :=
  let s := pyLower (pyStrip (pyOrS v ""))
  s = "1" ∨ s = "true" ∨ s = "yes"

/-- Models `[s.strip() for s in raw.split(",") if s.strip()] if raw else []`. -/
def parseCSV (v : Option String) : List String :=
  let raw := pyStrip (pyOrS v "")
  if raw ≠ "" then ((pySplitComma raw).map pyStrip).filter (fun s => s ≠ "") else []

/-- Models `(request.args.get(x) or "").strip() or None`. -/
def pyParamOpt (v : Option String) : Option String :=
  let t := pyStrip (pyOrS v "")
  if t = "" then none else some t

/-- Models the `/bl/transfer_order_qty_catalog` route: shared-key guard,
parameter parsing, destination resolution, then the core choreography. -/
def transfer_order_qty_catalog (E : Env σ) (sharedKey : String) (q : Query)
    (st : St σ) : Response TransferPayload × St σ :=
  if sharedKey ≠ "" ∧ q.key ≠ some sharedKey then (http_error 401 "Unauthorized", st)
  else
    let order_id_param := pyParamOpt q.order_id
    let order_number := pyParamOpt q.order_number
    let dst_loc_id := pyStrip (pyOrS q.dst "")
    let dst_name0 := pyStrip (pyOrS q.dst_name "")
    let src_list := parseCSV q.src_names
    let only_skus := parseCSV q.only_skus
    let partFlag := parseFlag q.partRaw
    let prefer_unalloc := parseFlag q.prefer_unallocated
    let dst_name : Option String :=
      if dst_name0 = "" then
        (if dst_loc_id ≠ "" then get_location_name_by_id E dst_loc_id else none)
      else some dst_name0
    if ¬ truthyS dst_name then
      (http_error 400 "Destination not found. Use dst_name=<bin name>.", st)
    else if src_list = [] ∧ ¬ prefer_unalloc then
      (http_error 400 "Specify src_names or set prefer_unallocated=1", st)
    else
      transferCore E order_id_param order_number (dst_name.getD "") src_list only_skus
        prefer_unalloc st

/-! ## The diagnostic and seeding endpoints -/

/-- Models raising Python `int(s)`: `none` when the literal is invalid. -/
def pyIntOpt (s : String) : Option Int :=
  match (pyStrip s).data with
  | [] => none
  | '-' :: rest =>
    match rest, digitsToNat 0 rest with
    | _ :: _, some n => some (-(n : Int))
    | _, _ => none
  | l =>
    match digitsToNat 0 l with
    | some n => some ((n : Int))
    | none => none

/-- Models `to_int(request.args.get(x))` (a possibly absent parameter). -/
def pyToIntOpt (v : Option String) : Int :=
  match v with
  | none => 0
  | some s => pyToInt s

/-- Models Python `float(s)` on the decimal literals operators supply
(optional sign, digits, optional fractional part); anything else raises,
modelled as `none`. -/
def pyFloat (s : String) : Option ℚ :=
  match (pyStrip s).data with
  | [] => none
  | l =>
    let (sgn, body) := match l with
      | '-' :: rest => ((-1 : ℚ), rest)
      | '+' :: rest => ((1 : ℚ), rest)
      | _ => ((1 : ℚ), l)
    let intPart := body.takeWhile Char.isDigit
    let rest := body.dropWhile Char.isDigit
    match rest with
    | [] =>
      match intPart, digitsToNat 0 intPart with
      | _ :: _, some n => some (sgn * (n : ℚ))
      | _, _ => none
    | '.' :: frac =>
      if frac.all Char.isDigit ∧ (intPart ≠ [] ∨ frac ≠ []) then
        match digitsToNat 0 intPart, digitsToNat 0 frac with
        | some n, some f => some (sgn * ((n : ℚ) + (f : ℚ) / ((10 : ℚ) ^ frac.length)))
        | _, _ => none
      else none
    | _ => none

/-- A framework-level 500 (an exception escaping the route handler before
its `try` block). -/
def frameworkError {π : Type} : Response π :=
  { status := 500 }

/-- Success payload of `/bl/inspect_sku`. -/
structure InspectSkuPayload where
  sku : String
  product_id : Int
  erp_units : List ErpUnit
deriving DecidableEq

/-- Models the `/bl/inspect_sku` route. -/
def inspect_sku (E : Env σ) (sharedKey : String) (sku_raw key : Option String) :
    Response InspectSkuPayload :=
  let sku := pyStrip (pyOrS sku_raw "")
  if sharedKey ≠ "" ∧ key ≠ some sharedKey then http_error 401 "Unauthorized"
  else if sku = "" then http_error 400 "Provide sku"
  else
    match find_catalog_product E (some sku) none with
    | none => http_error 404 "Product not found"
    | some r =>
      { status := 200,
        payload := some { sku := sku, product_id := r.product_id,
                          erp_units := get_erp_units_for_product E r.product_id } }

/-- Success payload of `/bl/inspect_doc`. -/
structure InspectDocPayload where
  doc_id : Int
  document : List DocRow
  items : List ItemRow
deriving DecidableEq

/-- Models the `/bl/inspect_doc` route (`int(doc_id)` raising inside the
`try` yields the Internal Error response). -/
def inspect_doc (E : Env σ) (sharedKey : String) (doc_id_raw key : Option String) :
    Response InspectDocPayload :=
  if sharedKey ≠ "" ∧ key ≠ some sharedKey then http_error 401 "Unauthorized"
  else
    let doc_id := pyStrip (pyOrS doc_id_raw "")
    if doc_id = "" then http_error 400 "Provide doc_id"
    else
      match pyIntOpt doc_id with
      | none => http_error_d 500 "Internal error" "invalid document id literal"
      | some did =>
        { status := 200,
          payload := some { doc_id := did, document := E.docsById did,
                            items := E.docItems did } }

/-- One attempt record of `/bl/probe_issue` (`response` payload is
formatting, outside the model). -/
structure ProbeAttempt where
  mode : String
  created : Bool
deriving DecidableEq

/-- Success payload of `/bl/probe_issue`. -/
structure ProbePayload where
  sku : String
  product_id : Int
  erp_units_seen : List ErpUnit
  last_igr_unit : Option UnitAttrs
  draft_igi_id : Nat
  attempts : List ProbeAttempt
deriving DecidableEq

/-- The `try_line` helper of `/bl/probe_issue`. -/
def probeTryLine (E : Env σ) (igi : Nat) (pid : Int) (unit : Option UnitAttrs)
    (bin_name : Option String) (mode : String) (acc : List ProbeAttempt × St σ) :
    List ProbeAttempt × St σ :=
  let line := build_erp_line_base pid 1 unit bin_name
  let (ok, st1) := add_items_verbose E igi [line] acc.2
  (acc.1 ++ [{ mode := mode, created := ok }], st1)

/-- Models the `/bl/probe_issue` route: a draft IGI with one probing add
per strategy (unallocated, then each listed bin), never confirmed. -/
def probe_issue (E : Env σ) (sharedKey : String) (sku_raw src_names key : Option String)
    (st : St σ) : Response ProbePayload × St σ :=
  if sharedKey ≠ "" ∧ key ≠ some sharedKey then (http_error 401 "Unauthorized", st)
  else
    let sku := pyStrip (pyOrS sku_raw "")
    let src_list := parseCSV src_names
    if sku = "" then (http_error 400 "Provide sku", st)
    else
      match find_catalog_product E (some sku) none with
      | none => (http_error 404 ("SKU " ++ sku ++ " not found"), st)
      | some r =>
        let pid := r.product_id
        let erp_units := get_erp_units_for_product E pid
        let last_igr := fetch_last_igr_unit E pid
        let (igi, st1) := create_document 3 st
        let acc0 : List ProbeAttempt × St σ := ([], st1)
        let acc1 :=
          match erp_units with
          | u :: _ => probeTryLine E igi pid (some u.attrs) none "unallocated_with_erp" acc0
          | [] =>
            match last_igr with
            | some l => probeTryLine E igi pid (some l) none "unallocated_with_last_igr" acc0
            | none => probeTryLine E igi pid none none "unallocated_plain" acc0
        let acc2 := src_list.foldl (fun acc src =>
          match erp_units with
          | u :: _ => probeTryLine E igi pid (some u.attrs) (some src)
              ("bin_with_erp:" ++ src) acc
          | [] =>
            match last_igr with
            | some l => probeTryLine E igi pid (some l) (some src)
                ("bin_with_last_igr:" ++ src) acc
            | none => probeTryLine E igi pid none (some src) ("bin_plain:" ++ src) acc) acc1
        ({ status := 200,
           payload := some { sku := sku, product_id := pid, erp_units_seen := erp_units,
                             last_igr_unit := last_igr, draft_igi_id := igi,
                             attempts := acc2.1 } }, acc2.2)

/-- Success payload of `/bl/seed_erp_unit`. -/
structure SeedPayload where
  igr_document_id : Nat
  sku : String
  qty : Int
  expiry_date : Option String
  price : Option ℚ
  bin : Option String
  erp_units_after : List ErpUnit
deriving DecidableEq

/-- Models the `/bl/seed_erp_unit` route: create and confirm an IGR (the
add result is not checked before confirming).  An invalid price literal
raises before the `try` block, yielding a framework-level 500. -/
def seed_erp_unit (E : Env σ) (sharedKey : String)
    (sku_raw qty_raw expiry_raw price_raw bin_raw key : Option String) (st : St σ) :
    Response SeedPayload × St σ :=
  if sharedKey ≠ "" ∧ key ≠ some sharedKey then (http_error 401 "Unauthorized", st)
  else
    let sku := pyStrip (pyOrS sku_raw "")
    let qty := pyToIntOpt qty_raw
    let expiry := pyParamOpt expiry_raw
    let priceStr := pyStrip (pyOrS price_raw "")
    if priceStr ≠ "" ∧ pyFloat priceStr = none then (frameworkError, st)
    else
      let price := if priceStr ≠ "" then pyFloat priceStr else none
      let bin_name := pyParamOpt bin_raw
      if sku = "" ∨ qty ≤ 0 then (http_error 400 "Provide sku and qty>0", st)
      else
        match find_catalog_product E (some sku) none with
        | none => (http_error 404 ("SKU " ++ sku ++ " not found"), st)
        | some r =>
          let pid := r.product_id
          let (igr, st1) := create_document 1 st
          let line : Line :=
            { product_id := pid, quantity := qty
              location_name := if truthyS bin_name then bin_name else none
              expiry_date := expiry
              price := price
              purchase_price := price }
          let (ok, st2) := add_items_verbose E igr [line] st1
          let st3 := confirm_document igr st2
          ({ status := 200,
             payload := some { igr_document_id := igr, sku := sku, qty := qty,
                               expiry_date := expiry, price := price, bin := bin_name,
                               erp_units_after := get_erp_units_for_product E pid } }, st3)

/-! ## The CSV export endpoint and its duplicated resolver -/

/-- The `to_int_local` helper of `/bl/export_order_csv` (same body as
`to_int`). -/
def to_int_local (s : String) : Int :=
  match (pyStrip s).data with
  | [] => 0
  | '-' :: rest =>
    match rest, digitsToNat 0 rest with
    | _ :: _, some n => -(n : Int)
    | _, _ => 0
  | l =>
    match digitsToNat 0 l with
    | some n => (n : Int)
    | none => 0

/-- The paginated match-collection loop of the CSV endpoint's own
`resolve_order_id` copy. -/
def collectMatchesCsv (E : Env σ) (needle : String) : Nat → Nat → List BLOrder
  | 0, _ => []
  | fuel + 1, page =>
    let rows := E.ordersPage page
    if rows = [] then []
    else rows.filter (matchesNeedle needle) ++ collectMatchesCsv E needle fuel (page + 1)

/-- The CSV endpoint's sort key (`to_int_local` on both components). -/
def orderSortKeyCsv (o : BLOrder) : Int × Int :=
  (o.date_add.getD 0, to_int_local o.order_id)

def sortMatchesDescCsv (ms : List BLOrder) : List BLOrder :=
  List.insertionSort (fun a b => keyLe (orderSortKeyCsv b) (orderSortKeyCsv a) = true) ms

/-- Models the `resolve_order_id` closure of `/bl/export_order_csv`
(duplicated verbatim in the source from the transfer endpoint's copy). -/
def resolve_order_id_csv (E : Env σ) (order_id order_number : Option String) :
    Except PyErr String :=
  if truthyS order_id then .ok (pyStrip (order_id.getD ""))
  else if ¬ truthyS order_number then .error (.valueError "Provide order_id or order_number")
  else
    let needle := pyStrip (order_number.getD "")
    let ms := collectMatchesCsv E needle 300 1
    if ms = [] then
      .error (.lookupError
        ("Order with order_number/id \x27" ++ order_number.getD "" ++ "\x27 not found"))
    else
      match sortMatchesDescCsv ms with
      | [] => .error (.lookupError
          ("Order with order_number/id \x27" ++ order_number.getD "" ++ "\x27 not found"))
      | m :: _ => .ok m.order_id

/-- One data row of the export CSV.  Cell stringification is response
formatting, outside the model: the catalog product id cell keeps its
numeric value, `none` standing for the empty cell. -/
structure CsvRow where
  order_id : String
  sku : String
  ean : String
  product_name : String
  qty : Int
  catalog_product_id : Option Int
  suggested_src_bin : String
  dst_bin : String
  warehouse_id : String
deriving DecidableEq

/-- The `catalog_lookup_for_sku` helper (exception-swallowing wrapper). -/
def catalog_lookup_for_sku (E : Env σ) (sku : String) : Option CatalogProd :=
  find_catalog_product E (some sku) none

/-- One CSV data row of `/bl/export_order_csv`. -/
def exportRow (E : Env σ) (oid : String) (include_bins : Bool) (dst_name : String)
    (it : OrderItem) : CsvRow :=
  let sku := pyStrip (pyOrS it.sku (pyOrS it.product_sku ""))
  let ean := pyStrip (pyOrS it.ean (pyOrS it.product_ean ""))
  let name := pyStrip (pyOrS it.name (pyOrS it.product_name ""))
  let qty := pyOrI it.quantity it.qty
  let (pid, src_bin) :=
    if sku ≠ "" then
      match catalog_lookup_for_sku E sku with
      | some r =>
        let pid := if r.product_id ≠ 0 then some r.product_id else none
        let src_bin :=
          if include_bins then
            match r.locations with
            | some (l₀ :: ls) =>
              match (l₀ :: ls).find? (fun loc => pyStrip (pyOrS loc.name "") ≠ "") with
              | some loc => pyStrip (pyOrS loc.name "")
              | none => ""
            | _ => ""
          else ""
        (pid, src_bin)
      | none => (none, "")
    else (none, "")
  { order_id := oid, sku := sku, ean := ean, product_name := name, qty := qty,
    catalog_product_id := pid, suggested_src_bin := src_bin, dst_bin := dst_name,
    warehouse_id := "77617" }

/-- Models the `/bl/export_order_csv` route (the header row and CSV
serialisation are response formatting, outside the model). -/
def export_order_csv (E : Env σ) (sharedKey : String)
    (order_id_raw order_number_raw include_bins_raw dst_name_raw key : Option String) :
    Response (List CsvRow) :=
  if sharedKey ≠ "" ∧ key ≠ some sharedKey then http_error 401 "Unauthorized"
  else
    let order_id_param := pyParamOpt order_id_raw
    let order_number := pyParamOpt order_number_raw
    let include_bins := parseFlag include_bins_raw
    let dst_name := pyOrS (some (pyStrip (pyOrS dst_name_raw ""))) "InternalStock"
    match resolve_order_id_csv E order_id_param order_number with
    | .error e => internal500 e
    | .ok oid =>
      match E.ordersById oid with
      | [] => http_error 404 ("Order not found: " ++ oid)
      | order :: _ =>
        if order.products = [] then http_error 400 "Order has no products"
        else
          { status := 200,
            payload := some (order.products.map (exportRow E oid include_bins dst_name)) }

/-! ## Generic lemmas: comparators -/

theorem keyLe_total (p q : Int × Int) : keyLe p q = true ∨ keyLe q p = true := by
  simp only [keyLe, Bool.or_eq_true, decide_eq_true_eq, Bool.and_eq_true]
  omega

theorem keyLe_trans {p q r : Int × Int} (h1 : keyLe p q = true) (h2 : keyLe q r = true) :
    keyLe p r = true := by
  simp only [keyLe, Bool.or_eq_true, decide_eq_true_eq, Bool.and_eq_true] at *
  omega

theorem lexLeChars_total : ∀ a b : List Char, lexLeChars a b = true ∨ lexLeChars b a = true
  | [], _ => by left; rfl
  | _ :: _, [] => by right; rfl
  | a :: as, b :: bs => by
    simp only [lexLeChars]
    by_cases hab : a = b
    · subst hab
      simpa using lexLeChars_total as bs
    · have hba : ¬ b = a := fun h => hab h.symm
      simp only [if_neg hab, if_neg hba, decide_eq_true_eq]
      rcases lt_trichotomy a b with h | h | h
      · left; exact h
      · exact absurd h hab
      · right; exact h

theorem lexLeChars_trans :
    ∀ {a b c : List Char}, lexLeChars a b = true → lexLeChars b c = true →
      lexLeChars a c = true
  | [], _, _, _, _ => rfl
  | _ :: _, [], _, h, _ => by simp [lexLeChars] at h
  | _ :: _, _ :: _, [], _, h => by simp [lexLeChars] at h
  | a :: as, b :: bs, c :: cs, h1, h2 => by
    simp only [lexLeChars] at *
    by_cases hab : a = b
    · subst hab
      by_cases hac : a = c
      · subst hac
        simp only [if_pos rfl] at *
        exact lexLeChars_trans h1 h2
      · simp only [if_pos rfl] at h1
        simpa [hac] using h2
    · by_cases hbc : b = c
      · subst hbc
        simpa [hab] using h1
      · simp only [if_neg hab, if_neg hbc, decide_eq_true_eq] at h1 h2
        have hac : a < c := lt_trans h1 h2
        have : a ≠ c := ne_of_lt hac
        simp [this, hac]

theorem lexLeChars_antisymm :
    ∀ {a b : List Char}, lexLeChars a b = true → lexLeChars b a = true → a = b
  | [], [], _, _ => rfl
  | [], _ :: _, _, h => by simp [lexLeChars] at h
  | _ :: _, [], h, _ => by simp [lexLeChars] at h
  | a :: as, b :: bs, h1, h2 => by
    simp only [lexLeChars] at h1 h2
    by_cases hab : a = b
    · subst hab
      simp only [if_pos rfl] at h1 h2
      exact congrArg (a :: ·) (lexLeChars_antisymm h1 h2)
    · have hba : ¬ b = a := fun h => hab h.symm
      simp only [if_neg hab, if_neg hba, decide_eq_true_eq] at h1 h2
      exact absurd (lt_trans h1 h2) (lt_irrefl a)

theorem strLe_total (a b : String) : strLe a b = true ∨ strLe b a = true :=
  lexLeChars_total a.data b.data

theorem strLe_trans {a b c : String} (h1 : strLe a b = true) (h2 : strLe b c = true) :
    strLe a c = true :=
  lexLeChars_trans h1 h2

theorem strLe_antisymm {a b : String} (h1 : strLe a b = true) (h2 : strLe b a = true) :
    a = b := by
  cases a; cases b
  exact congrArg String.mk (lexLeChars_antisymm h1 h2)

/-! ## Generic lemmas: the issued-per-product dictionary -/

theorem getA_cons (p q pid : Int) (tl : List (Int × Int)) :
    getA ((p, q) :: tl) pid = if p = pid then q else getA tl pid := by
  by_cases hp : p = pid
  · subst hp
    simp [getA, List.find?_cons]
  · simp [getA, List.find?_cons, hp]

theorem updAList_nil (pid d : Int) : updAList [] pid d = [(pid, d)] := rfl

theorem updAList_cons_eq (p q pid d : Int) (tl : List (Int × Int)) (h : p = pid) :
    updAList ((p, q) :: tl) pid d = (p, q + d) :: tl := by
  simp [updAList, h]

theorem updAList_cons_ne (p q pid d : Int) (tl : List (Int × Int)) (h : p ≠ pid) :
    updAList ((p, q) :: tl) pid d = (p, q) :: updAList tl pid d := by
  simp [updAList, h]

theorem updAList_keys (al : List (Int × Int)) (pid d : Int) :
    (updAList al pid d).map Prod.fst =
      if pid ∈ al.map Prod.fst then al.map Prod.fst else al.map Prod.fst ++ [pid] := by
  induction al with
  | nil => simp [updAList]
  | cons hd tl ih =>
    obtain ⟨p, q⟩ := hd
    by_cases hp : p = pid
    · subst hp
      simp [updAList, List.mem_cons]
    · simp only [updAList, if_neg hp, List.map_cons]
      rw [ih]
      by_cases hm : pid ∈ tl.map Prod.fst
      · rw [if_pos hm, if_pos (by simp [hm])]
      · rw [if_neg hm, if_neg (by simp [hm, Ne.symm hp])]
        simp

theorem updAList_nodup {al : List (Int × Int)} (pid d : Int)
    (h : (al.map Prod.fst).Nodup) : ((updAList al pid d).map Prod.fst).Nodup := by
  rw [updAList_keys]
  by_cases hm : pid ∈ al.map Prod.fst
  · simpa [hm]
  · rw [if_neg hm]
    refine List.Nodup.append h (List.nodup_singleton pid) ?_
    intro x hx hx'
    simp only [List.mem_singleton] at hx'
    subst hx'
    exact hm hx

theorem updAList_pos {al : List (Int × Int)} {pid d : Int}
    (h : ∀ pq ∈ al, 0 < pq.2) (hd : 0 < d) : ∀ pq ∈ updAList al pid d, 0 < pq.2 := by
  induction al with
  | nil =>
    intro pq hpq
    simp only [updAList, List.mem_singleton] at hpq
    subst hpq
    simpa
  | cons a tl ih =>
    obtain ⟨p, q⟩ := a
    intro pq hpq
    by_cases hp : p = pid
    · rw [updAList_cons_eq p q pid d tl hp] at hpq
      rcases List.mem_cons.mp hpq with rfl | hmem
      · have hq := h (p, q) (by simp)
        simp only at hq ⊢
        omega
      · exact h pq (by simp [hmem])
    · rw [updAList_cons_ne p q pid d tl hp] at hpq
      rcases List.mem_cons.mp hpq with rfl | hmem
      · exact h (p, q) (by simp)
      · exact ih (fun x hx => h x (by simp [hx])) pq hmem

theorem getA_updAList_same (al : List (Int × Int)) (pid d : Int) :
    getA (updAList al pid d) pid = getA al pid + d := by
  induction al with
  | nil => simp [updAList, getA]
  | cons hd tl ih =>
    obtain ⟨p, q⟩ := hd
    by_cases hp : p = pid
    · rw [updAList_cons_eq p q pid d tl hp, getA_cons, getA_cons, if_pos hp, if_pos hp]
    · rw [updAList_cons_ne p q pid d tl hp, getA_cons, getA_cons, if_neg hp, if_neg hp]
      omega

theorem getA_updAList_other (al : List (Int × Int)) {pid pid' : Int} (d : Int)
    (h : pid' ≠ pid) : getA (updAList al pid d) pid' = getA al pid' := by
  induction al with
  | nil =>
    rw [updAList_nil, getA_cons, if_neg (fun e => h e.symm)]
  | cons hd tl ih =>
    obtain ⟨p, q⟩ := hd
    by_cases hp : p = pid
    · rw [updAList_cons_eq p q pid d tl hp, getA_cons, getA_cons,
        if_neg (fun e => h (e.symm.trans hp)), if_neg (fun e => h (e.symm.trans hp))]
    · rw [updAList_cons_ne p q pid d tl hp, getA_cons, getA_cons]
      by_cases hp' : p = pid'
      · rw [if_pos hp', if_pos hp']
      · rw [if_neg hp', if_neg hp']
        exact ih

theorem getA_eq_zero_of_not_mem {al : List (Int × Int)} {pid : Int}
    (h : pid ∉ al.map Prod.fst) : getA al pid = 0 := by
  induction al with
  | nil => rfl
  | cons hd tl ih =>
    obtain ⟨p, q⟩ := hd
    simp only [List.map_cons, List.mem_cons] at h
    push_neg at h
    rw [getA_cons, if_neg (fun e => h.1 e.symm)]
    exact ih h.2

theorem receiptLines_cons (p q : Int) (tl : List (Int × Int)) (dst : String) :
    receiptLines ((p, q) :: tl) dst =
      if 0 < q then
        { product_id := p, quantity := q, location_name := some dst } :: receiptLines tl dst
      else receiptLines tl dst := by
  simp only [receiptLines, List.filter_cons]
  by_cases hq : 0 < q
  · simp [hq]
  · simp [hq]

/-- The receipt-line characterisation: with distinct keys and positive
values, the receipt document holds exactly one line per issued product,
carrying the accumulated issued quantity and the destination name. -/
theorem receiptLines_filter (al : List (Int × Int)) (dst : String) (pid : Int)
    (hnd : (al.map Prod.fst).Nodup) (hpos : ∀ pq ∈ al, 0 < pq.2) :
    (receiptLines al dst).filter (fun l => l.product_id = pid) =
      if 0 < getA al pid then
        [{ product_id := pid, quantity := getA al pid, location_name := some dst }]
      else [] := by
  induction al with
  | nil => simp [receiptLines, getA]
  | cons a tl ih =>
    obtain ⟨p, q⟩ := a
    have hq : 0 < q := by simpa using hpos (p, q) (by simp)
    simp only [List.map_cons] at hnd
    have hnd' : (tl.map Prod.fst).Nodup := (List.nodup_cons.mp hnd).2
    have hpm : p ∉ tl.map Prod.fst := (List.nodup_cons.mp hnd).1
    have hpos' : ∀ pq ∈ tl, 0 < pq.2 := fun x hx => hpos x (by simp [hx])
    rw [receiptLines_cons, if_pos hq, getA_cons]
    by_cases hp : p = pid
    · subst hp
      rw [if_pos rfl, if_pos hq, List.filter_cons_of_pos (by simp)]
      have h0 : getA tl p = 0 := getA_eq_zero_of_not_mem hpm
      have htl := ih hnd' hpos'
      rw [h0, if_neg (by omega)] at htl
      rw [htl]
    · rw [if_neg hp, List.filter_cons_of_neg (by simp [hp])]
      exact ih hnd' hpos'

/-! ## Generic lemmas: issued-quantity bounds -/

theorem erpWalk_bounds (E : Env σ) (igi : Nat) (pid : Int) (bin : Option String) :
    ∀ (us : List ErpUnit) (r : Int) (st : St σ),
      0 ≤ (erpWalk E igi pid bin us r st).1 ∧ (erpWalk E igi pid bin us r st).1 ≤ max r 0
  | [], r, st => by
    simp only [erpWalk]
    omega
  | u :: us, r, st => by
    by_cases hr : r ≤ 0
    · simp only [erpWalk, if_pos hr]
      omega
    · simp only [erpWalk, if_neg hr]
      by_cases ht : min r u.qty ≤ 0
      · rw [if_pos ht]
        have := erpWalk_bounds E igi pid bin us r st
        omega
      · rw [if_neg ht]
        rcases hA : add_items_verbose E igi
            [build_erp_line_base pid (min r u.qty) (some u.attrs) bin] st with ⟨ok, st1⟩
        cases ok
        · simp only [show (((false, st1) : Bool × St σ).1 = true) = False by simp, if_false]
          omega
        · simp only [show (((true, st1) : Bool × St σ).1 = true) = True by simp, if_true]
          rcases h3 : erpWalk E igi pid bin us (r - min r u.qty) st1 with ⟨m, st2, tr⟩
          have hrec := erpWalk_bounds E igi pid bin us (r - min r u.qty) st1
          rw [h3] at hrec
          simp only at hrec ⊢
          omega

theorem unallocPlain_bounds (E : Env σ) (pid qty : Int) (igi : Nat)
    (fails : List FailReason) (st : St σ) (h : 0 ≤ qty) :
    0 ≤ (unallocPlain E pid qty igi fails st).1 ∧
      (unallocPlain E pid qty igi fails st).1 ≤ qty := by
  simp only [unallocPlain]
  rcases hA : add_items_verbose E igi [{ product_id := pid, quantity := qty }] st
    with ⟨ok, st1⟩
  cases ok <;> simp <;> omega

theorem unallocFallback_bounds (E : Env σ) (pid qty : Int) (igi : Nat)
    (fails : List FailReason) (st : St σ) (h : 0 ≤ qty) :
    0 ≤ (unallocFallback E pid qty igi fails st).1 ∧
      (unallocFallback E pid qty igi fails st).1 ≤ qty := by
  simp only [unallocFallback]
  rcases hL : fetch_last_igr_unit E pid with _ | last
  · exact unallocPlain_bounds E pid qty igi fails st h
  · simp only
    rcases hA : add_items_verbose E igi
        [build_erp_line_base pid qty (some last) none] st with ⟨ok, st1⟩
    cases ok
    · simp only [show (((false, st1) : Bool × St σ).1 = true) = False by simp, if_false]
      exact unallocPlain_bounds E pid qty igi _ st1 h
    · simp only [show (((true, st1) : Bool × St σ).1 = true) = True by simp, if_true]
      omega

theorem issue_unallocated_bounds (E : Env σ) (pid qty : Int) (igi : Nat) (st : St σ)
    (h : 0 ≤ qty) :
    0 ≤ (issue_unallocated E pid qty igi st).1 ∧
      (issue_unallocated E pid qty igi st).1 ≤ qty := by
  simp only [issue_unallocated]
  by_cases hu : get_erp_units_for_product E pid = []
  · rw [if_pos hu]
    exact unallocFallback_bounds E pid qty igi [] st h
  · rw [if_neg hu]
    rcases hW : erpWalk E igi pid none (get_erp_units_for_product E pid) qty st
      with ⟨moved, st1, tr⟩
    have hb := erpWalk_bounds E igi pid none (get_erp_units_for_product E pid) qty st
    rw [hW] at hb
    simp only at hb
    by_cases hm : moved ≠ 0
    · rw [if_pos hm]
      simp only
      omega
    · rw [if_neg hm]
      exact unallocFallback_bounds E pid qty igi _ st1 h

theorem binPlain_bounds (E : Env σ) (pid qty : Int) (bin : String) (igi : Nat)
    (fails : List FailReason) (st : St σ) (h : 0 ≤ qty) :
    0 ≤ (binPlain E pid qty bin igi fails st).1 ∧
      (binPlain E pid qty bin igi fails st).1 ≤ qty := by
  simp only [binPlain]
  rcases hA : add_items_verbose E igi
    [{ product_id := pid, quantity := qty, location_name := some bin }] st with ⟨ok, st1⟩
  cases ok <;> simp <;> omega

theorem binFallback_bounds (E : Env σ) (pid qty : Int) (bin : String) (igi : Nat)
    (fails : List FailReason) (st : St σ) (h : 0 ≤ qty) :
    0 ≤ (binFallback E pid qty bin igi fails st).1 ∧
      (binFallback E pid qty bin igi fails st).1 ≤ qty := by
  simp only [binFallback]
  rcases hL : fetch_last_igr_unit E pid with _ | last
  · exact binPlain_bounds E pid qty bin igi fails st h
  · simp only
    rcases hA : add_items_verbose E igi
        [build_erp_line_base pid qty (some last) (some bin)] st with ⟨ok, st1⟩
    cases ok
    · simp only [show (((false, st1) : Bool × St σ).1 = true) = False by simp, if_false]
      exact binPlain_bounds E pid qty bin igi _ st1 h
    · simp only [show (((true, st1) : Bool × St σ).1 = true) = True by simp, if_true]
      omega

theorem issue_from_bin_bounds (E : Env σ) (pid qty : Int) (bin : String) (igi : Nat)
    (st : St σ) (h : 0 ≤ qty) :
    0 ≤ (issue_from_bin E pid qty bin igi st).1 ∧
      (issue_from_bin E pid qty bin igi st).1 ≤ qty := by
  simp only [issue_from_bin]
  by_cases hu : get_erp_units_for_product E pid = []
  · rw [if_pos hu]
    exact binFallback_bounds E pid qty bin igi [] st h
  · rw [if_neg hu]
    rcases hW : erpWalk E igi pid (some bin) (get_erp_units_for_product E pid) qty st
      with ⟨moved, st1, tr⟩
    have hb := erpWalk_bounds E igi pid (some bin) (get_erp_units_for_product E pid) qty st
    rw [hW] at hb
    simp only at hb
    by_cases hm : moved ≠ 0
    · rw [if_pos hm]
      simp only
      omega
    · rw [if_neg hm]
      exact binFallback_bounds E pid qty bin igi _ st1 h

/-! ## Generic lemmas: the issue phase -/

/-- Everything the claims need about one `issue_unallocated` step of the
per-line loop. -/
theorem stepUnalloc_spec (E : Env σ) (igi : Nat) (pid r : Int) (ps : PhaseSt σ)
    (hr : 0 ≤ r) :
    0 ≤ (stepUnalloc E igi pid r ps).1 ∧ (stepUnalloc E igi pid r ps).1 ≤ r ∧
    (stepUnalloc E igi pid r ps).2.total = ps.total + (stepUnalloc E igi pid r ps).1 ∧
    getA (stepUnalloc E igi pid r ps).2.issued pid
      = getA ps.issued pid + (stepUnalloc E igi pid r ps).1 ∧
    (∀ pid', pid' ≠ pid →
      getA (stepUnalloc E igi pid r ps).2.issued pid' = getA ps.issued pid') ∧
    ((ps.issued.map Prod.fst).Nodup →
      (((stepUnalloc E igi pid r ps).2.issued).map Prod.fst).Nodup) ∧
    ((∀ pq ∈ ps.issued, 0 < pq.2) →
      ∀ pq ∈ (stepUnalloc E igi pid r ps).2.issued, 0 < pq.2) := by
  have hb := issue_unallocated_bounds E pid r igi ps.st hr
  simp only [stepUnalloc]
  rcases hI : issue_unallocated E pid r igi ps.st with ⟨moved, fails, mode, st1⟩
  rw [hI] at hb
  simp only at hb
  by_cases hm : moved ≠ 0
  · rw [if_pos hm]
    have hpos : 0 < moved := by omega
    refine ⟨by omega, by omega, rfl, ?_, ?_, ?_, ?_⟩
    · simpa using getA_updAList_same ps.issued pid moved
    · intro pid' h'
      simpa using getA_updAList_other ps.issued moved h'
    · intro hd
      simpa using updAList_nodup pid moved hd
    · intro hp
      simpa using updAList_pos hp hpos
  · rw [if_neg hm]
    dsimp only
    exact ⟨le_refl 0, hr, by omega, by omega, fun _ _ => rfl, fun h => h, fun h => h⟩

/-- Everything the claims need about the first-fit bin loop. -/
theorem binsLoop_spec (E : Env σ) (igi : Nat) (pid : Int) :
    ∀ (srcs : List String) (r : Int) (ps : PhaseSt σ),
    0 ≤ (binsLoop E igi pid srcs r ps).1 ∧ (binsLoop E igi pid srcs r ps).1 ≤ max r 0 ∧
    (binsLoop E igi pid srcs r ps).2.total = ps.total + (binsLoop E igi pid srcs r ps).1 ∧
    getA (binsLoop E igi pid srcs r ps).2.issued pid
      = getA ps.issued pid + (binsLoop E igi pid srcs r ps).1 ∧
    (∀ pid', pid' ≠ pid →
      getA (binsLoop E igi pid srcs r ps).2.issued pid' = getA ps.issued pid') ∧
    ((ps.issued.map Prod.fst).Nodup →
      (((binsLoop E igi pid srcs r ps).2.issued).map Prod.fst).Nodup) ∧
    ((∀ pq ∈ ps.issued, 0 < pq.2) →
      ∀ pq ∈ (binsLoop E igi pid srcs r ps).2.issued, 0 < pq.2)
  | [], r, ps => by
    dsimp only [binsLoop]
    exact ⟨le_refl 0, by omega, by omega, by omega, fun _ _ => rfl, fun h => h, fun h => h⟩
  | src :: rest, r, ps => by
    by_cases hr : r ≤ 0
    · have hbl : binsLoop E igi pid (src :: rest) r ps = (0, ps) := by
        simp [binsLoop, if_pos hr]
      rw [hbl]
      dsimp only
      exact ⟨le_refl 0, by omega, by omega, by omega, fun _ _ => rfl, fun h => h, fun h => h⟩
    · simp only [binsLoop, if_neg hr]
      have hb := issue_from_bin_bounds E pid r src igi ps.st (by omega)
      rcases hI : issue_from_bin E pid r src igi ps.st with ⟨moved, fails, mode, st1⟩
      rw [hI] at hb
      simp only at hb
      by_cases hm : moved ≠ 0
      · rw [if_pos hm]
        have hpos : 0 < moved := by omega
        refine ⟨by omega, by simp only; omega, rfl, ?_, ?_, ?_, ?_⟩
        · simpa using getA_updAList_same ps.issued pid moved
        · intro pid' h'
          simpa using getA_updAList_other ps.issued moved h'
        · intro hd
          simpa using updAList_nodup pid moved hd
        · intro hp
          simpa using updAList_pos hp hpos
      · rw [if_neg hm]
        exact binsLoop_spec E igi pid rest r _

/-- Everything the claims need about one line of the issue phase: the
per-line issued delta is non-negative and never exceeds the requested
quantity, the issued dictionary changes only at the line's product, and
the dictionary invariants are preserved. -/
theorem runLine_spec (E : Env σ) (prefer : Bool) (srcs : List String) (igi : Nat)
    (ls : LineSpec) (ps : PhaseSt σ) :
    ps.total ≤ (runLine E prefer srcs igi ls ps).total ∧
    (runLine E prefer srcs igi ls ps).total ≤ ps.total + max ls.qty 0 ∧
    getA (runLine E prefer srcs igi ls ps).issued ls.product_id
      = getA ps.issued ls.product_id + ((runLine E prefer srcs igi ls ps).total - ps.total) ∧
    (∀ pid', pid' ≠ ls.product_id →
      getA (runLine E prefer srcs igi ls ps).issued pid' = getA ps.issued pid') ∧
    ((ps.issued.map Prod.fst).Nodup →
      (((runLine E prefer srcs igi ls ps).issued).map Prod.fst).Nodup) ∧
    ((∀ pq ∈ ps.issued, 0 < pq.2) →
      ∀ pq ∈ (runLine E prefer srcs igi ls ps).issued, 0 < pq.2) := by
  simp only [runLine]
  rcases h1 : (if prefer ∧ 0 < ls.qty then stepUnalloc E igi ls.product_id ls.qty ps
      else (0, ps)) with ⟨m1, ps1⟩
  have s1 : 0 ≤ m1 ∧ m1 ≤ max ls.qty 0 ∧ ps1.total = ps.total + m1 ∧
      getA ps1.issued ls.product_id = getA ps.issued ls.product_id + m1 ∧
      (∀ pid', pid' ≠ ls.product_id → getA ps1.issued pid' = getA ps.issued pid') ∧
      ((ps.issued.map Prod.fst).Nodup → ((ps1.issued).map Prod.fst).Nodup) ∧
      ((∀ pq ∈ ps.issued, 0 < pq.2) → ∀ pq ∈ ps1.issued, 0 < pq.2) := by
    by_cases hc : prefer ∧ 0 < ls.qty
    · rw [if_pos hc] at h1
      have := stepUnalloc_spec E igi ls.product_id ls.qty ps (by omega)
      rw [h1] at this
      simp only at this
      exact ⟨this.1, by omega, this.2.2.1, this.2.2.2.1, this.2.2.2.2.1,
        this.2.2.2.2.2.1, this.2.2.2.2.2.2⟩
    · rw [if_neg hc] at h1
      cases h1
      exact ⟨le_refl 0, by omega, by omega, by omega, fun _ _ => rfl, fun h => h, fun h => h⟩
  rcases h2 : (if 0 < ls.qty - m1 ∧ srcs ≠ [] then
      binsLoop E igi ls.product_id srcs (ls.qty - m1) ps1 else (0, ps1)) with ⟨m2, ps2⟩
  have s2 : 0 ≤ m2 ∧ m2 ≤ max (ls.qty - m1) 0 ∧ ps2.total = ps1.total + m2 ∧
      getA ps2.issued ls.product_id = getA ps1.issued ls.product_id + m2 ∧
      (∀ pid', pid' ≠ ls.product_id → getA ps2.issued pid' = getA ps1.issued pid') ∧
      ((ps1.issued.map Prod.fst).Nodup → ((ps2.issued).map Prod.fst).Nodup) ∧
      ((∀ pq ∈ ps1.issued, 0 < pq.2) → ∀ pq ∈ ps2.issued, 0 < pq.2) := by
    by_cases hc : 0 < ls.qty - m1 ∧ srcs ≠ []
    · rw [if_pos hc] at h2
      have := binsLoop_spec E igi ls.product_id srcs (ls.qty - m1) ps1
      rw [h2] at this
      simp only at this
      exact ⟨this.1, this.2.1, this.2.2.1, this.2.2.2.1, this.2.2.2.2.1,
        this.2.2.2.2.2.1, this.2.2.2.2.2.2⟩
    · rw [if_neg hc] at h2
      cases h2
      exact ⟨le_refl 0, by omega, by omega, by omega, fun _ _ => rfl, fun h => h, fun h => h⟩
  rcases h3 : (if 0 < ls.qty - m1 - m2 ∧ ¬ prefer then
      stepUnalloc E igi ls.product_id (ls.qty - m1 - m2) ps2 else (0, ps2)) with ⟨m3, ps3⟩
  have s3 : 0 ≤ m3 ∧ m3 ≤ max (ls.qty - m1 - m2) 0 ∧ ps3.total = ps2.total + m3 ∧
      getA ps3.issued ls.product_id = getA ps2.issued ls.product_id + m3 ∧
      (∀ pid', pid' ≠ ls.product_id → getA ps3.issued pid' = getA ps2.issued pid') ∧
      ((ps2.issued.map Prod.fst).Nodup → ((ps3.issued).map Prod.fst).Nodup) ∧
      ((∀ pq ∈ ps2.issued, 0 < pq.2) → ∀ pq ∈ ps3.issued, 0 < pq.2) := by
    by_cases hc : 0 < ls.qty - m1 - m2 ∧ ¬ prefer
    · rw [if_pos hc] at h3
      have := stepUnalloc_spec E igi ls.product_id (ls.qty - m1 - m2) ps2 (by omega)
      rw [h3] at this
      simp only at this
      exact ⟨this.1, by omega, this.2.2.1, this.2.2.2.1, this.2.2.2.2.1,
        this.2.2.2.2.2.1, this.2.2.2.2.2.2⟩
    · rw [if_neg hc] at h3
      cases h3
      exact ⟨le_refl 0, by omega, by omega, by omega, fun _ _ => rfl, fun h => h, fun h => h⟩
  by_cases hrem : 0 < ls.qty - m1 - m2 - m3
  · rw [if_pos hrem]
    dsimp only
    refine ⟨by omega, by omega, by omega, ?_, ?_, ?_⟩
    · intro pid' h'
      rw [s3.2.2.2.2.1 pid' h', s2.2.2.2.2.1 pid' h', s1.2.2.2.2.1 pid' h']
    · intro hd
      exact s3.2.2.2.2.2.1 (s2.2.2.2.2.2.1 (s1.2.2.2.2.2.1 hd))
    · intro hp
      exact s3.2.2.2.2.2.2 (s2.2.2.2.2.2.2 (s1.2.2.2.2.2.2 hp))
  · rw [if_neg hrem]
    dsimp only
    refine ⟨by omega, by omega, by omega, ?_, ?_, ?_⟩
    · intro pid' h'
      rw [s3.2.2.2.2.1 pid' h', s2.2.2.2.2.1 pid' h', s1.2.2.2.2.1 pid' h']
    · intro hd
      exact s3.2.2.2.2.2.1 (s2.2.2.2.2.2.1 (s1.2.2.2.2.2.1 hd))
    · intro hp
      exact s3.2.2.2.2.2.2 (s2.2.2.2.2.2.2 (s1.2.2.2.2.2.2 hp))

/-- The requested quantity for a product over the resolved lines. -/
def requestedFor (lines : List LineSpec) (pid : Int) : Int :=
  ((lines.filter (fun ls => ls.product_id = pid)).map (fun ls => ls.qty)).sum

/-- Issue-phase accumulation: the dictionary invariants hold, the issued
amount per product only grows, and it never exceeds the previously issued
amount plus the requested amount over the processed lines. -/
theorem issuePhase_spec (E : Env σ) (prefer : Bool) (srcs : List String) (igi : Nat) :
    ∀ (lines : List LineSpec) (ps : PhaseSt σ), (∀ ls ∈ lines, 0 ≤ ls.qty) →
    (∀ pid, getA ps.issued pid ≤ getA (issuePhase E prefer srcs igi lines ps).issued pid) ∧
    (∀ pid, getA (issuePhase E prefer srcs igi lines ps).issued pid
      ≤ getA ps.issued pid + requestedFor lines pid) ∧
    ((ps.issued.map Prod.fst).Nodup →
      (((issuePhase E prefer srcs igi lines ps).issued).map Prod.fst).Nodup) ∧
    ((∀ pq ∈ ps.issued, 0 < pq.2) →
      ∀ pq ∈ (issuePhase E prefer srcs igi lines ps).issued, 0 < pq.2)
  | [], ps, _ => by
    simp only [issuePhase, List.foldl_nil]
    exact ⟨fun _ => le_refl _, fun pid => by simp [requestedFor], fun h => h, fun h => h⟩
  | ls :: rest, ps, hq => by
    have hstep := runLine_spec E prefer srcs igi ls ps
    have hrest := issuePhase_spec E prefer srcs igi rest (runLine E prefer srcs igi ls ps)
      (fun x hx => hq x (by simp [hx]))
    have hq0 : 0 ≤ ls.qty := hq ls (by simp)
    have hfold : issuePhase E prefer srcs igi (ls :: rest) ps
        = issuePhase E prefer srcs igi rest (runLine E prefer srcs igi ls ps) := by
      simp [issuePhase]
    rw [hfold]
    refine ⟨?_, ?_, ?_, ?_⟩
    · intro pid
      refine le_trans ?_ (hrest.1 pid)
      by_cases hp : pid = ls.product_id
      · subst hp
        omega
      · rw [hstep.2.2.2.1 pid hp]
    · intro pid
      refine le_trans (hrest.2.1 pid) ?_
      by_cases hp : pid = ls.product_id
      · subst hp
        have hreq : requestedFor (ls :: rest) ls.product_id
            = ls.qty + requestedFor rest ls.product_id := by
          unfold requestedFor
          rw [List.filter_cons_of_pos (by simp), List.map_cons, List.sum_cons]
        rw [hreq]
        omega
      · have hreq : requestedFor (ls :: rest) pid = requestedFor rest pid := by
          unfold requestedFor
          rw [List.filter_cons_of_neg
            (by simp only [decide_eq_true_eq]; exact fun e => hp e.symm)]
        rw [hreq, hstep.2.2.2.1 pid hp]
    · exact fun hd => hrest.2.2.1 (hstep.2.2.2.2.1 hd)
    · exact fun hp => hrest.2.2.2 (hstep.2.2.2.2.2 hp)

/-! ## Generic lemmas: remote-write effects of the issue phase -/

/-- During the issue phase, the only remote writes are line-add calls on
the issue document, and no new documents are handed out. -/
def AddsOnly (igi : Nat) (st st' : St σ) : Prop :=
  (∃ ext, st'.log = st.log ++ ext ∧ ∀ e ∈ ext, ∃ ls ok, e = Effect.add igi ls ok) ∧
    st'.nextDoc = st.nextDoc

theorem addsOnly_refl (igi : Nat) (st : St σ) : AddsOnly igi st st :=
  ⟨⟨[], by simp, fun e he => absurd he (List.not_mem_nil e)⟩, rfl⟩

theorem addsOnly_trans {igi : Nat} {st1 st2 st3 : St σ}
    (h1 : AddsOnly igi st1 st2) (h2 : AddsOnly igi st2 st3) : AddsOnly igi st1 st3 := by
  obtain ⟨⟨e1, hl1, ha1⟩, hn1⟩ := h1
  obtain ⟨⟨e2, hl2, ha2⟩, hn2⟩ := h2
  refine ⟨⟨e1 ++ e2, ?_, ?_⟩, hn2.trans hn1⟩
  · rw [hl2, hl1, List.append_assoc]
  · intro e he
    rcases List.mem_append.mp he with h | h
    · exact ha1 e h
    · exact ha2 e h

theorem addsOnly_add (E : Env σ) (igi : Nat) (lines : List Line) (st : St σ) :
    AddsOnly igi st (add_items_verbose E igi lines st).2 := by
  refine ⟨⟨[Effect.add igi lines (E.addCall st.plat igi lines).1], ?_, ?_⟩, rfl⟩
  · rfl
  · intro e he
    simp only [List.mem_singleton] at he
    exact ⟨lines, _, he⟩

theorem addsOnly_erpWalk (E : Env σ) (igi : Nat) (pid : Int) (bin : Option String) :
    ∀ (us : List ErpUnit) (r : Int) (st : St σ),
      AddsOnly igi st (erpWalk E igi pid bin us r st).2.1
  | [], r, st => addsOnly_refl igi st
  | u :: us, r, st => by
    by_cases hr : r ≤ 0
    · simp only [erpWalk, if_pos hr]
      exact addsOnly_refl igi st
    · simp only [erpWalk, if_neg hr]
      by_cases ht : min r u.qty ≤ 0
      · rw [if_pos ht]
        exact addsOnly_erpWalk E igi pid bin us r st
      · rw [if_neg ht]
        rcases hA : add_items_verbose E igi
            [build_erp_line_base pid (min r u.qty) (some u.attrs) bin] st with ⟨ok, st1⟩
        have h1 : AddsOnly igi st st1 := by
          have := addsOnly_add E igi
            [build_erp_line_base pid (min r u.qty) (some u.attrs) bin] st
          rw [hA] at this
          exact this
        cases ok
        · simp only [show (((false, st1) : Bool × St σ).1 = true) = False by simp, if_false]
          exact h1
        · simp only [show (((true, st1) : Bool × St σ).1 = true) = True by simp, if_true]
          rcases h3 : erpWalk E igi pid bin us (r - min r u.qty) st1 with ⟨m, st2, tr⟩
          have h2 := addsOnly_erpWalk E igi pid bin us (r - min r u.qty) st1
          rw [h3] at h2
          exact addsOnly_trans h1 h2

theorem addsOnly_unallocPlain (E : Env σ) (pid qty : Int) (igi : Nat)
    (fails : List FailReason) (st : St σ) :
    AddsOnly igi st (unallocPlain E pid qty igi fails st).2.2.2 := by
  simp only [unallocPlain]
  rcases hA : add_items_verbose E igi [{ product_id := pid, quantity := qty }] st
    with ⟨ok, st1⟩
  have h1 : AddsOnly igi st st1 := by
    have := addsOnly_add E igi [{ product_id := pid, quantity := qty }] st
    rw [hA] at this
    exact this
  cases ok <;> simpa using h1

theorem addsOnly_unallocFallback (E : Env σ) (pid qty : Int) (igi : Nat)
    (fails : List FailReason) (st : St σ) :
    AddsOnly igi st (unallocFallback E pid qty igi fails st).2.2.2 := by
  simp only [unallocFallback]
  rcases hL : fetch_last_igr_unit E pid with _ | last
  · exact addsOnly_unallocPlain E pid qty igi fails st
  · simp only
    rcases hA : add_items_verbose E igi
        [build_erp_line_base pid qty (some last) none] st with ⟨ok, st1⟩
    have h1 : AddsOnly igi st st1 := by
      have := addsOnly_add E igi [build_erp_line_base pid qty (some last) none] st
      rw [hA] at this
      exact this
    cases ok
    · simp only [show (((false, st1) : Bool × St σ).1 = true) = False by simp, if_false]
      exact addsOnly_trans h1 (addsOnly_unallocPlain E pid qty igi _ st1)
    · simp only [show (((true, st1) : Bool × St σ).1 = true) = True by simp, if_true]
      exact h1

theorem addsOnly_issue_unallocated (E : Env σ) (pid qty : Int) (igi : Nat) (st : St σ) :
    AddsOnly igi st (issue_unallocated E pid qty igi st).2.2.2 := by
  simp only [issue_unallocated]
  by_cases hu : get_erp_units_for_product E pid = []
  · rw [if_pos hu]
    exact addsOnly_unallocFallback E pid qty igi [] st
  · rw [if_neg hu]
    rcases hW : erpWalk E igi pid none (get_erp_units_for_product E pid) qty st
      with ⟨moved, st1, tr⟩
    have h1 := addsOnly_erpWalk E igi pid none (get_erp_units_for_product E pid) qty st
    rw [hW] at h1
    by_cases hm : moved ≠ 0
    · rw [if_pos hm]
      exact h1
    · rw [if_neg hm]
      exact addsOnly_trans h1 (addsOnly_unallocFallback E pid qty igi _ st1)

theorem addsOnly_binPlain (E : Env σ) (pid qty : Int) (bin : String) (igi : Nat)
    (fails : List FailReason) (st : St σ) :
    AddsOnly igi st (binPlain E pid qty bin igi fails st).2.2.2 := by
  simp only [binPlain]
  rcases hA : add_items_verbose E igi
    [{ product_id := pid, quantity := qty, location_name := some bin }] st with ⟨ok, st1⟩
  have h1 : AddsOnly igi st st1 := by
    have := addsOnly_add E igi
      [{ product_id := pid, quantity := qty, location_name := some bin }] st
    rw [hA] at this
    exact this
  cases ok <;> simpa using h1

theorem addsOnly_binFallback (E : Env σ) (pid qty : Int) (bin : String) (igi : Nat)
    (fails : List FailReason) (st : St σ) :
    AddsOnly igi st (binFallback E pid qty bin igi fails st).2.2.2 := by
  simp only [binFallback]
  rcases hL : fetch_last_igr_unit E pid with _ | last
  · exact addsOnly_binPlain E pid qty bin igi fails st
  · simp only
    rcases hA : add_items_verbose E igi
        [build_erp_line_base pid qty (some last) (some bin)] st with ⟨ok, st1⟩
    have h1 : AddsOnly igi st st1 := by
      have := addsOnly_add E igi [build_erp_line_base pid qty (some last) (some bin)] st
      rw [hA] at this
      exact this
    cases ok
    · simp only [show (((false, st1) : Bool × St σ).1 = true) = False by simp, if_false]
      exact addsOnly_trans h1 (addsOnly_binPlain E pid qty bin igi _ st1)
    · simp only [show (((true, st1) : Bool × St σ).1 = true) = True by simp, if_true]
      exact h1

theorem addsOnly_issue_from_bin (E : Env σ) (pid qty : Int) (bin : String) (igi : Nat)
    (st : St σ) : AddsOnly igi st (issue_from_bin E pid qty bin igi st).2.2.2 := by
  simp only [issue_from_bin]
  by_cases hu : get_erp_units_for_product E pid = []
  · rw [if_pos hu]
    exact addsOnly_binFallback E pid qty bin igi [] st
  · rw [if_neg hu]
    rcases hW : erpWalk E igi pid (some bin) (get_erp_units_for_product E pid) qty st
      with ⟨moved, st1, tr⟩
    have h1 := addsOnly_erpWalk E igi pid (some bin) (get_erp_units_for_product E pid) qty st
    rw [hW] at h1
    by_cases hm : moved ≠ 0
    · rw [if_pos hm]
      exact h1
    · rw [if_neg hm]
      exact addsOnly_trans h1 (addsOnly_binFallback E pid qty bin igi _ st1)

theorem addsOnly_stepUnalloc (E : Env σ) (igi : Nat) (pid r : Int) (ps : PhaseSt σ) :
    AddsOnly igi ps.st (stepUnalloc E igi pid r ps).2.st := by
  simp only [stepUnalloc]
  rcases hI : issue_unallocated E pid r igi ps.st with ⟨moved, fails, mode, st1⟩
  have h1 := addsOnly_issue_unallocated E pid r igi ps.st
  rw [hI] at h1
  by_cases hm : moved ≠ 0
  · rw [if_pos hm]
    exact h1
  · rw [if_neg hm]
    exact h1

theorem addsOnly_binsLoop (E : Env σ) (igi : Nat) (pid : Int) :
    ∀ (srcs : List String) (r : Int) (ps : PhaseSt σ),
      AddsOnly igi ps.st (binsLoop E igi pid srcs r ps).2.st
  | [], r, ps => addsOnly_refl igi ps.st
  | src :: rest, r, ps => by
    by_cases hr : r ≤ 0
    · have hbl : binsLoop E igi pid (src :: rest) r ps = (0, ps) := by
        simp [binsLoop, if_pos hr]
      rw [hbl]
      exact addsOnly_refl igi ps.st
    · simp only [binsLoop, if_neg hr]
      rcases hI : issue_from_bin E pid r src igi ps.st with ⟨moved, fails, mode, st1⟩
      have h1 := addsOnly_issue_from_bin E pid r src igi ps.st
      rw [hI] at h1
      by_cases hm : moved ≠ 0
      · rw [if_pos hm]
        exact h1
      · rw [if_neg hm]
        have h2 := addsOnly_binsLoop E igi pid rest r
          { ps with fails := ps.fails ++ fails, st := st1 }
        exact addsOnly_trans h1 h2

theorem addsOnly_runLine (E : Env σ) (prefer : Bool) (srcs : List String) (igi : Nat)
    (ls : LineSpec) (ps : PhaseSt σ) :
    AddsOnly igi ps.st (runLine E prefer srcs igi ls ps).st := by
  simp only [runLine]
  rcases h1 : (if prefer ∧ 0 < ls.qty then stepUnalloc E igi ls.product_id ls.qty ps
      else (0, ps)) with ⟨m1, ps1⟩
  have a1 : AddsOnly igi ps.st ps1.st := by
    by_cases hc : prefer ∧ 0 < ls.qty
    · rw [if_pos hc] at h1
      have := addsOnly_stepUnalloc E igi ls.product_id ls.qty ps
      rw [h1] at this
      exact this
    · rw [if_neg hc] at h1
      cases h1
      exact addsOnly_refl igi ps.st
  rcases h2 : (if 0 < ls.qty - m1 ∧ srcs ≠ [] then
      binsLoop E igi ls.product_id srcs (ls.qty - m1) ps1 else (0, ps1)) with ⟨m2, ps2⟩
  have a2 : AddsOnly igi ps1.st ps2.st := by
    by_cases hc : 0 < ls.qty - m1 ∧ srcs ≠ []
    · rw [if_pos hc] at h2
      have := addsOnly_binsLoop E igi ls.product_id srcs (ls.qty - m1) ps1
      rw [h2] at this
      exact this
    · rw [if_neg hc] at h2
      cases h2
      exact addsOnly_refl igi ps1.st
  rcases h3 : (if 0 < ls.qty - m1 - m2 ∧ ¬ prefer then
      stepUnalloc E igi ls.product_id (ls.qty - m1 - m2) ps2 else (0, ps2)) with ⟨m3, ps3⟩
  have a3 : AddsOnly igi ps2.st ps3.st := by
    by_cases hc : 0 < ls.qty - m1 - m2 ∧ ¬ prefer
    · rw [if_pos hc] at h3
      have := addsOnly_stepUnalloc E igi ls.product_id (ls.qty - m1 - m2) ps2
      rw [h3] at this
      exact this
    · rw [if_neg hc] at h3
      cases h3
      exact addsOnly_refl igi ps2.st
  have a123 := addsOnly_trans (addsOnly_trans a1 a2) a3
  by_cases hrem : 0 < ls.qty - m1 - m2 - m3
  · rw [if_pos hrem]
    exact a123
  · rw [if_neg hrem]
    exact a123

theorem addsOnly_issuePhase (E : Env σ) (prefer : Bool) (srcs : List String) (igi : Nat) :
    ∀ (lines : List LineSpec) (ps : PhaseSt σ),
      AddsOnly igi ps.st (issuePhase E prefer srcs igi lines ps).st
  | [], ps => addsOnly_refl igi ps.st
  | ls :: rest, ps => by
    have hfold : issuePhase E prefer srcs igi (ls :: rest) ps
        = issuePhase E prefer srcs igi rest (runLine E prefer srcs igi ls ps) := by
      simp [issuePhase]
    rw [hfold]
    exact addsOnly_trans (addsOnly_runLine E prefer srcs igi ls ps)
      (addsOnly_issuePhase E prefer srcs igi rest (runLine E prefer srcs igi ls ps))

/-! ## Generic lemmas: receipt lines and dictionary membership -/

theorem getA_of_mem_nodup {al : List (Int × Int)} (hnd : (al.map Prod.fst).Nodup)
    {p q : Int} (h : (p, q) ∈ al) : getA al p = q := by
  induction al with
  | nil => cases h
  | cons a tl ih =>
    obtain ⟨a1, a2⟩ := a
    simp only [List.map_cons] at hnd
    rcases List.mem_cons.mp h with he | hmem
    · cases he
      rw [getA_cons, if_pos rfl]
    · have hne : a1 ≠ p := by
        intro e
        subst e
        exact (List.nodup_cons.mp hnd).1 (List.mem_map.mpr ⟨(a1, q), hmem, rfl⟩)
      rw [getA_cons, if_neg hne]
      exact ih (List.nodup_cons.mp hnd).2 hmem

theorem receiptLines_mem {al : List (Int × Int)} {dst : String} {l : Line}
    (h : l ∈ receiptLines al dst) :
    ∃ pq, pq ∈ al ∧ 0 < pq.2 ∧
      l = { product_id := pq.1, quantity := pq.2, location_name := some dst } := by
  simp only [receiptLines, List.mem_map, List.mem_filter, decide_eq_true_eq] at h
  obtain ⟨pq, ⟨hmem, hpos⟩, heq⟩ := h
  exact ⟨pq, hmem, hpos, heq.symm⟩

/-! ## Concrete test fixtures -/

/-- A platform state with nothing to track. -/
def stU : St Unit := { plat := (), nextDoc := 1, log := [] }

/-- A remote platform that accepts every line-add and has no data. -/
def acceptEnv0 : Env Unit :=
  { addCall := fun s _ _ => (true, s)
    erpUnitsRaw := fun _ => []
    docsList := fun _ => []
    docItems := fun _ => []
    ordersPage := fun _ => []
    ordersById := fun _ => []
    productBySku := fun _ => none
    productByEan := fun _ => none
    locations := []
    docsById := fun _ => [] }

/-- A five-unit order line for SKU X1 (order id 5). -/
def order5 : BLOrder :=
  { order_id := "5", products := [{ sku := some "X1", quantity := some 5 }] }

/-- A seven-unit order line for SKU X1 (order id 5). -/
def order7 : BLOrder :=
  { order_id := "5", products := [{ sku := some "X1", quantity := some 7 }] }

/-- Accept-everything platform knowing order 5 and SKU X1. -/
def envAccept : Env Unit :=
  { acceptEnv0 with
    ordersById := fun oid => if oid = "5" then [order5] else []
    productBySku := fun s => if s = "X1" then some { product_id := 101 } else none }

/-- Reject-everything platform knowing the seven-unit order. -/
def envReject7 : Env Unit :=
  { acceptEnv0 with
    addCall := fun s _ _ => (false, s)
    ordersById := fun oid => if oid = "5" then [order7] else []
    productBySku := fun s => if s = "X1" then some { product_id := 101 } else none }

/-- A bin-stock platform: a single-line add against a named bin succeeds
exactly when the bin holds at least the requested quantity (and consumes
it); unallocated and multi-line adds are rejected. -/
def binStockAdd (stock : List (String × Int)) (d : Nat) (lines : List Line) :
    Bool × List (String × Int) :=
  match lines with
  | [l] =>
    match l.location_name with
    | some b =>
      match stock.find? (fun p => p.1 = b) with
      | some p =>
        if l.quantity ≤ p.2 then
          (true, stock.map (fun q => if q.1 = b then (q.1, q.2 - l.quantity) else q))
        else (false, stock)
      | none => (false, stock)
    | none => (false, stock)
  | _ => (false, stock)

/-- Bin platform with bins A (3 units) and B (2 units), order 5, SKU X1. -/
def envBins : Env (List (String × Int)) :=
  { addCall := binStockAdd
    erpUnitsRaw := fun _ => []
    docsList := fun _ => []
    docItems := fun _ => []
    ordersPage := fun _ => []
    ordersById := fun oid => if oid = "5" then [order5] else []
    productBySku := fun s => if s = "X1" then some { product_id := 101 } else none
    productByEan := fun _ => none
    locations := []
    docsById := fun _ => [] }

def stBins : St (List (String × Int)) := { plat := [("A", 3), ("B", 2)], nextDoc := 1, log := [] }

/-- Environment whose catalog only resolves by EAN. -/
def envEan : Env Unit :=
  { acceptEnv0 with
    productByEan := fun e => if e = "E" then some { product_id := 7 } else none }

/-- Two orders sharing order-number 42, created at the same timestamp;
the one with the smaller numeric id has the more recent confirmation. -/
def envTie : Env Unit :=
  { acceptEnv0 with
    ordersPage := fun p =>
      if p = 1 then
        [{ order_number := "42", order_id := "2", date_add := some 100,
           date_confirmed := some 50 },
         { order_number := "42", order_id := "1", date_add := some 100,
           date_confirmed := some 90 }]
      else [] }

/-- Accept-everything platform with two ERP units for product 101 (raw
order: undated before dated). -/
def envErp : Env Unit :=
  { acceptEnv0 with
    erpUnitsRaw := fun pid =>
      if pid = 101 then
        [{ expiry_date := none, qty := some 5 },
         { expiry_date := some "2026-01-01", qty := some 3, price := some 2 }]
      else [] }

/-- The transfer query used by the counterexample runs: explicit order id
5, destination D, sources A, halving flag set. -/
def q7 : Query :=
  { order_id := some "5", dst_name := some "D", src_names := some "A", partRaw := some "1" }

/-- As `q7` but with sources A and B. -/
def q45 : Query :=
  { order_id := some "5", dst_name := some "D", src_names := some "A,B",
    partRaw := some "1" }

/-- A transfer query with an explicit order id unknown to the platform. -/
def q123 : Query :=
  { order_id := some "123", dst_name := some "D", src_names := some "A" }

/-! ## Claim C9 -/

/-- C9: for every request to a mutating or diagnostic endpoint (the
relocation endpoint and the five inspection/seeding/export routes, all of
which carry the identical guard), if the supplied shared secret — query
parameter or custom header — does not match the non-empty
operator-configured value, the response is 401 Unauthorized and, for the
stateful routes, the request state is untouched. -/
theorem c9_shared_secret_unauthorized (σ : Type) (E : Env σ) (sharedKey : String)
    (supplied : Option String) (h1 : sharedKey ≠ "") (h2 : supplied ≠ some sharedKey) :
    (∀ (q : Query) (st : St σ), q.key = supplied →
      transfer_order_qty_catalog E sharedKey q st = (http_error 401 "Unauthorized", st)) ∧
    (∀ sku_raw, inspect_sku E sharedKey sku_raw supplied = http_error 401 "Unauthorized") ∧
    (∀ doc_raw, inspect_doc E sharedKey doc_raw supplied = http_error 401 "Unauthorized") ∧
    (∀ sku_raw srcs_raw st, probe_issue E sharedKey sku_raw srcs_raw supplied st
        = (http_error 401 "Unauthorized", st)) ∧
    (∀ a b c d e st, seed_erp_unit E sharedKey a b c d e supplied st
        = (http_error 401 "Unauthorized", st)) ∧
    (∀ a b c d, export_order_csv E sharedKey a b c d supplied
        = http_error 401 "Unauthorized") := by
  refine ⟨?_, ?_, ?_, ?_, ?_, ?_⟩
  · intro q st hq
    have h3 : q.key ≠ some sharedKey := by rw [hq]; exact h2
    simp only [transfer_order_qty_catalog, if_pos (And.intro h1 h3)]
  · intro a
    simp only [inspect_sku, if_pos (And.intro h1 h2)]
  · intro a
    simp only [inspect_doc, if_pos (And.intro h1 h2)]
  · intro a b st
    simp only [probe_issue, if_pos (And.intro h1 h2)]
  · intro a b c d e st
    simp only [seed_erp_unit, if_pos (And.intro h1 h2)]
  · intro a b c d
    simp only [export_order_csv, if_pos (And.intro h1 h2)]

theorem c9_shared_secret_unauthorized_witness :
    (("k" : String) ≠ "" ∧ (none : Option String) ≠ some "k") ∧
      inspect_sku acceptEnv0 "k" (some "s") none = http_error 401 "Unauthorized" :=
  ⟨by decide,
    (c9_shared_secret_unauthorized Unit acceptEnv0 "k" none (by decide) (by decide)).2.1
      (some "s")⟩

/-! ## Claim C10 -/

theorem collectMatchesCsv_eq (E : Env σ) (needle : String) :
    ∀ (fuel page : Nat),
      collectMatchesCsv E needle fuel page = collectMatches E needle fuel page
  | 0, _ => rfl
  | fuel + 1, page => by
    simp only [collectMatchesCsv, collectMatches]
    rw [collectMatchesCsv_eq E needle fuel (page + 1)]

theorem sortMatchesDescCsv_eq (ms : List BLOrder) :
    sortMatchesDescCsv ms = sortMatchesDesc ms := rfl

/-- C10: the order-number resolution routine embedded in the relocation
endpoint and the copy embedded in the CSV export endpoint are equivalent:
for every identifier/number input pair and every sequence of remote
`getOrders` responses, they return the same resolved identifier or fail
with the same error. -/
theorem c10_resolver_equivalence (σ : Type) (E : Env σ)
    (order_id order_number : Option String) :
    resolve_order_id_csv E order_id order_number
      = resolve_order_id E order_id order_number := by
  simp only [resolve_order_id_csv, resolve_order_id, sortMatchesDescCsv_eq,
    collectMatchesCsv_eq]

/-! ## Claim C5 -/

/-- C5 counterexample: with an explicit order id the platform does not
know, the relocation endpoint returns 500 Internal Error, not 404: the
`LookupError` raised by `get_order_by_id_strict` is swallowed by the
endpoint's blanket `except Exception` handler. -/
theorem c5_counterexample :
    (transfer_order_qty_catalog acceptEnv0 "" q123 stU).1.status = 500 ∧
    (transfer_order_qty_catalog acceptEnv0 "" q123 stU).1.error = some "Internal error" ∧
    ¬ (transfer_order_qty_catalog acceptEnv0 "" q123 stU).1.status = 404 := by
  decide

/-- C5 amended: when an explicit order identifier is supplied and the
remote platform returns no matching order record, the relocation core
fails with a 500 Internal Error response whose detail carries the
not-found message (never a 404). -/
theorem c5_amended (σ : Type) (E : Env σ) (oid : String) (onum : Option String)
    (dst : String) (srcs onlys : List String) (prefer : Bool) (st : St σ)
    (h1 : oid ≠ "") (h2 : E.ordersById (pyStrip oid) = []) :
    transferCore E (some oid) onum dst srcs onlys prefer st
      = (internal500 (PyErr.lookupError ("Order not found by order_id " ++ pyStrip oid)),
         st) := by
  have hres : resolve_order_id E (some oid) onum = .ok (pyStrip oid) := by
    simp only [resolve_order_id, truthyS]
    rw [if_pos (by simpa using h1)]
    rfl
  have hord : get_order_by_id_strict E (pyStrip oid)
      = .error (PyErr.lookupError ("Order not found by order_id " ++ pyStrip oid)) := by
    simp only [get_order_by_id_strict, h2]
  simp only [transferCore, hres, hord]

theorem c5_amended_witness :
    (("123" : String) ≠ "" ∧ acceptEnv0.ordersById (pyStrip "123") = []) ∧
      transferCore acceptEnv0 (some "123") none "D" ["A"] [] false stU
        = (internal500 (PyErr.lookupError ("Order not found by order_id " ++ pyStrip "123")),
           stU) :=
  ⟨⟨by decide, by decide⟩,
    c5_amended Unit acceptEnv0 "123" none "D" ["A"] [] false stU (by decide) (by decide)⟩

/-! ## Claim C6 -/

/-- C6 counterexample: a line whose SKU lookup fails but whose EAN does
resolve against the catalog is nevertheless reported as missing — the
endpoint's per-line resolution consults only the SKU filter. -/
theorem c6_counterexample :
    (collectLines envEan [] [{ sku := some "S", ean := some "E", quantity := some 1 }]).2.1
        = [{ sku := "S", ean := some "E" }] ∧
      envEan.productByEan "E" = some { product_id := 7 } := by
  decide

theorem find_catalog_sku_only (E : Env σ) (sku : String) :
    find_catalog_product E (some sku) none
      = if sku ≠ "" then E.productBySku sku else none := by
  by_cases hs : sku = ""
  · simp [find_catalog_product, truthyS, hs]
  · simp [find_catalog_product, truthyS, hs]

/-- C6 amended: per-line catalog resolution of the relocation endpoint is
an exact-SKU lookup only: `find_catalog_product` called with a SKU never
consults the EAN filter, a line is reported missing exactly when it is in
scope with positive quantity and its (possibly empty) SKU does not
resolve, and the whole resolution loop is invariant under the catalog's
EAN table — there is no override table, no EAN fallback and no
embedded-identifier validation. -/
theorem c6_amended (σ : Type) (E : Env σ) :
    (∀ sku : String, find_catalog_product E (some sku) none
        = if sku ≠ "" then E.productBySku sku else none) ∧
    (∀ (only_skus : List String) (items : List OrderItem),
      (collectLines E only_skus items).2.1 = items.filterMap (fun it =>
        if only_skus ≠ [] ∧ pyStrip (pyOrS it.sku (pyOrS it.product_sku "")) ∉ only_skus
        then none
        else if pyOrI it.quantity it.qty ≤ 0 then none
        else
          match find_catalog_product E
              (some (pyStrip (pyOrS it.sku (pyOrS it.product_sku "")))) none with
          | none => some { sku := pyStrip (pyOrS it.sku (pyOrS it.product_sku "")),
                           ean := it.ean }
          | some _ => none)) ∧
    (∀ (f : String → Option CatalogProd) (only_skus : List String)
        (items : List OrderItem),
      collectLines { E with productByEan := f } only_skus items
        = collectLines E only_skus items) := by
  refine ⟨find_catalog_sku_only E, ?_, ?_⟩
  · intro only items
    induction items with
    | nil => rfl
    | cons it rest ih =>
      rw [List.filterMap_cons]
      simp only [collectLines]
      by_cases hscope : only ≠ [] ∧ pyStrip (pyOrS it.sku (pyOrS it.product_sku "")) ∉ only
      · rw [if_pos hscope, if_pos hscope]
        exact ih
      · rw [if_neg hscope, if_neg hscope]
        by_cases hq : pyOrI it.quantity it.qty ≤ 0
        · rw [if_pos hq, if_pos hq]
          exact ih
        · rw [if_neg hq, if_neg hq]
          rcases hfind : find_catalog_product E
              (some (pyStrip (pyOrS it.sku (pyOrS it.product_sku "")))) none with _ | r
          · simpa using ih
          · simpa using ih
  · intro f only items
    induction items with
    | nil => rfl
    | cons it rest ih =>
      have hfind : find_catalog_product { E with productByEan := f }
          (some (pyStrip (pyOrS it.sku (pyOrS it.product_sku "")))) none
          = find_catalog_product E
              (some (pyStrip (pyOrS it.sku (pyOrS it.product_sku "")))) none := by
        rw [find_catalog_sku_only, find_catalog_sku_only]
      simp only [collectLines, ih, hfind]

/-! ## Claim C7 -/

/-- C7 counterexample: two orders share order-number 42 and the same
creation timestamp; the order with id 1 has the more recent confirmation
timestamp (90 against 50), so the claimed tie-break would pick id 1 —
but the resolver picks id 2, because its sort key is only
(creation timestamp, numeric id). -/
theorem c7_counterexample :
    resolve_order_id envTie none (some "42") = Except.ok "2" ∧
    resolve_order_id envTie none (some "42") ≠ Except.ok "1" ∧
    (envTie.ordersPage 1).map
        (fun o => (o.order_number, o.order_id, o.date_add, o.date_confirmed))
      = [("42", "2", some 100, some 50), ("42", "1", some 100, some 90)] ∧
    (envTie.ordersPage 1).map (matchesNeedle "42") = [true, true] := by
  refine ⟨rfl, ?_, by decide, by decide⟩
  intro h
  have h2 : resolve_order_id envTie none (some "42") = Except.ok "2" := rfl
  have h3 : (Except.ok "2" : Except PyErr String) = Except.ok "1" := h2.symm.trans h
  injection h3 with h4
  exact absurd h4 (by decide)

theorem keyLe_refl (p : Int × Int) : keyLe p p = true := by
  simp [keyLe]

/-- A pointwise modification of the confirmation timestamps of the
scanned orders. -/
def setConf (g : BLOrder → Option Int) (o : BLOrder) : BLOrder :=
  { o with date_confirmed := g o }

/-- The environment with every scanned order's confirmation timestamp
rewritten by `g`. -/
def confMap (g : BLOrder → Option Int) (E : Env σ) : Env σ :=
  { E with ordersPage := fun p => (E.ordersPage p).map (setConf g) }

theorem collectMatches_confMap (E : Env σ) (g : BLOrder → Option Int) (n : String) :
    ∀ (fuel page : Nat),
      collectMatches (confMap g E) n fuel page
        = (collectMatches E n fuel page).map (setConf g)
  | 0, _ => rfl
  | fuel + 1, page => by
    have hop : (confMap g E).ordersPage page = (E.ordersPage page).map (setConf g) := rfl
    simp only [collectMatches, hop]
    by_cases hrow : E.ordersPage page = []
    · simp [hrow]
    · rw [if_neg (by simpa using hrow), if_neg hrow, List.filter_map,
        collectMatches_confMap E g n fuel (page + 1), List.map_append,
        show (matchesNeedle n ∘ setConf g) = matchesNeedle n from funext fun o => rfl]

theorem sortDesc_map (g : BLOrder → Option Int) (ms : List BLOrder) :
    sortMatchesDesc (ms.map (setConf g)) = (sortMatchesDesc ms).map (setConf g) :=
  (List.map_insertionSort
    (fun a b : BLOrder => keyLe (orderSortKey b) (orderSortKey a) = true)
    (fun a b : BLOrder => keyLe (orderSortKey b) (orderSortKey a) = true)
    (setConf g) ms (fun _ _ _ _ => Iff.rfl)).symm

/-- C7 amended: when multiple orders match the supplied order-number, the
resolver returns a match whose (creation-timestamp, numeric-identifier)
sort key is maximal over all matches — the confirmation timestamp is not
consulted at all: rewriting every scanned order's confirmation timestamp
leaves the resolver's answer unchanged. -/
theorem c7_amended (σ : Type) (E : Env σ) (order_number : Option String) (r : String)
    (h1 : truthyS order_number = true)
    (hr : resolve_order_id E none order_number = .ok r) :
    (∃ m ∈ collectMatches E (pyStrip (order_number.getD "")) 300 1,
      m.order_id = r ∧
      ∀ m' ∈ collectMatches E (pyStrip (order_number.getD "")) 300 1,
        keyLe (orderSortKey m') (orderSortKey m) = true) ∧
    (∀ g : BLOrder → Option Int,
      resolve_order_id (confMap g E) none order_number
        = resolve_order_id E none order_number) := by
  have hunfold : resolve_order_id E none order_number =
      (if collectMatches E (pyStrip (order_number.getD "")) 300 1 = [] then
        Except.error (PyErr.lookupError
          ("Order with order_number/id \x27" ++ order_number.getD "" ++ "\x27 not found"))
      else
        match sortMatchesDesc (collectMatches E (pyStrip (order_number.getD "")) 300 1) with
        | [] => Except.error (PyErr.lookupError
            ("Order with order_number/id \x27" ++ order_number.getD "" ++ "\x27 not found"))
        | m :: _ => Except.ok m.order_id) := by
    simp only [resolve_order_id]
    rw [if_neg (by simp [truthyS]), if_neg (by simp [h1])]
  constructor
  · by_cases hnil : collectMatches E (pyStrip (order_number.getD "")) 300 1 = []
    · rw [hunfold, if_pos hnil] at hr
      exact absurd hr (by simp)
    · rcases hsort : sortMatchesDesc (collectMatches E (pyStrip (order_number.getD "")) 300 1)
        with _ | ⟨m, rest⟩
      · rw [hunfold, if_neg hnil, hsort] at hr
        exact absurd hr (by simp)
      · rw [hunfold, if_neg hnil, hsort] at hr
        have hmr : m.order_id = r := by
          injection hr
        have hmem : m ∈ collectMatches E (pyStrip (order_number.getD "")) 300 1 := by
          have hm : m ∈ sortMatchesDesc (collectMatches E (pyStrip (order_number.getD ""))
              300 1) := by
            rw [hsort]
            exact List.mem_cons_self m rest
          simpa [sortMatchesDesc, List.mem_insertionSort] using hm
        refine ⟨m, hmem, hmr, ?_⟩
        intro m' hm'
        haveI instTr : IsTrans BLOrder
            (fun a b => keyLe (orderSortKey b) (orderSortKey a) = true) :=
          ⟨fun _ _ _ hab hbc => keyLe_trans hbc hab⟩
        haveI instTot : IsTotal BLOrder
            (fun a b => keyLe (orderSortKey b) (orderSortKey a) = true) :=
          ⟨fun a b => keyLe_total (orderSortKey b) (orderSortKey a)⟩
        have hsorted := List.sorted_insertionSort
          (fun a b : BLOrder => keyLe (orderSortKey b) (orderSortKey a) = true)
          (collectMatches E (pyStrip (order_number.getD "")) 300 1)
        rw [show List.insertionSort
            (fun a b : BLOrder => keyLe (orderSortKey b) (orderSortKey a) = true)
            (collectMatches E (pyStrip (order_number.getD "")) 300 1)
          = sortMatchesDesc (collectMatches E (pyStrip (order_number.getD "")) 300 1)
          from rfl, hsort] at hsorted
        have hm'sort : m' ∈ sortMatchesDesc
            (collectMatches E (pyStrip (order_number.getD "")) 300 1) := by
          simpa [sortMatchesDesc, List.mem_insertionSort] using hm'
        rw [hsort] at hm'sort
        rcases List.mem_cons.mp hm'sort with rfl | hrest
        · exact keyLe_refl _
        · exact List.rel_of_sorted_cons hsorted m' hrest
  · intro g
    have hunfold2 : resolve_order_id (confMap g E) none order_number =
        (if collectMatches (confMap g E) (pyStrip (order_number.getD "")) 300 1 = [] then
          Except.error (PyErr.lookupError
            ("Order with order_number/id \x27" ++ order_number.getD "" ++ "\x27 not found"))
        else
          match sortMatchesDesc
              (collectMatches (confMap g E) (pyStrip (order_number.getD "")) 300 1) with
          | [] => Except.error (PyErr.lookupError
              ("Order with order_number/id \x27" ++ order_number.getD "" ++ "\x27 not found"))
          | m :: _ => Except.ok m.order_id) := by
      simp only [resolve_order_id]
      rw [if_neg (by simp [truthyS]), if_neg (by simp [h1])]
    rw [hunfold, hunfold2, collectMatches_confMap E g (pyStrip (order_number.getD "")) 300 1,
      sortDesc_map]
    by_cases hnil : collectMatches E (pyStrip (order_number.getD "")) 300 1 = []
    · rw [if_pos (by simp [hnil]), if_pos hnil]
    · rw [if_neg (by simpa using hnil), if_neg hnil]
      rcases hsort : sortMatchesDesc (collectMatches E (pyStrip (order_number.getD "")) 300 1)
        with _ | ⟨m, rest⟩
      · rfl
      · rfl

/-! ## Claims C1 and C2: the issue/receipt choreography -/

/-- The issue-phase result that `transferCore` computes for a given order
(after creating the issue draft document). -/
def phaseOf (E : Env σ) (prefer : Bool) (srcs onlys : List String) (order : BLOrder)
    (st : St σ) : PhaseSt σ :=
  issuePhase E prefer srcs (create_document 3 st).1 (collectLines E onlys order.products).1
    { issued := [], total := 0, fails := [], modes := [], st := (create_document 3 st).2 }

/-- C2: for every relocation request whose issue phase accumulates a zero
total, the core returns a 400 Bad Request, the final request state is the
phase state itself (nothing further happens), no confirm call was ever
issued, and the only document ever created is the type-3 issue draft —
in particular no receipt (type-1) document is created. -/
theorem c2_zero_issue_aborts (σ : Type) (E : Env σ) (oidp onum : Option String)
    (dst : String) (srcs onlys : List String) (prefer : Bool) (st : St σ)
    (oid : String) (order : BLOrder)
    (hres : resolve_order_id E oidp onum = .ok oid)
    (hord : get_order_by_id_strict E oid = .ok order)
    (hprod : order.products ≠ [])
    (hbase : (collectLines E onlys order.products).1 ≠ [])
    (htot : (phaseOf E prefer srcs onlys order st).total = 0) :
    (transferCore E oidp onum dst srcs onlys prefer st).1.status = 400 ∧
    (transferCore E oidp onum dst srcs onlys prefer st).1.error
      = some "IGI could not issue any items" ∧
    (transferCore E oidp onum dst srcs onlys prefer st).2
      = (phaseOf E prefer srcs onlys order st).st ∧
    (∀ d, Effect.confirm d ∈ (transferCore E oidp onum dst srcs onlys prefer st).2.log →
      Effect.confirm d ∈ st.log) ∧
    (∀ t d, Effect.create t d ∈ (transferCore E oidp onum dst srcs onlys prefer st).2.log →
      Effect.create t d ∈ st.log ∨ (t = 3 ∧ d = st.nextDoc)) := by
  rcases hC : collectLines E onlys order.products with ⟨bs, ms, ss⟩
  have hbase' : bs ≠ [] := by
    rw [hC] at hbase
    simpa using hbase
  have htot2 : (issuePhase E prefer srcs st.nextDoc bs
      { issued := [], total := 0, fails := [], modes := [],
        st := { plat := st.plat, nextDoc := st.nextDoc + 1,
                log := st.log ++ [Effect.create 3 st.nextDoc] } }).total = 0 := by
    have h := htot
    unfold phaseOf at h
    rw [hC] at h
    exact h
  have hcore : transferCore E oidp onum dst srcs onlys prefer st
      = (http_error_d 400 "IGI could not issue any items" "issue-failure context",
         (issuePhase E prefer srcs st.nextDoc bs
           { issued := [], total := 0, fails := [], modes := [],
             st := { plat := st.plat, nextDoc := st.nextDoc + 1,
                     log := st.log ++ [Effect.create 3 st.nextDoc] } }).st) := by
    simp only [transferCore, hres, hord, hC, create_document]
    rw [if_neg hprod, if_neg hbase', if_pos htot2]
  have hphase : (phaseOf E prefer srcs onlys order st).st
      = (issuePhase E prefer srcs st.nextDoc bs
          { issued := [], total := 0, fails := [], modes := [],
            st := { plat := st.plat, nextDoc := st.nextDoc + 1,
                    log := st.log ++ [Effect.create 3 st.nextDoc] } }).st := by
    unfold phaseOf
    rw [hC]
    rfl
  have hAO := addsOnly_issuePhase E prefer srcs st.nextDoc bs
    { issued := [], total := 0, fails := [], modes := [],
      st := { plat := st.plat, nextDoc := st.nextDoc + 1,
              log := st.log ++ [Effect.create 3 st.nextDoc] } }
  obtain ⟨⟨ext, hlog, hadds⟩, hnd⟩ := hAO
  refine ⟨by rw [hcore]; rfl, by rw [hcore]; rfl, by rw [hcore, hphase], ?_, ?_⟩
  · intro d hd
    rw [hcore] at hd
    simp only at hd
    rw [hlog] at hd
    simp only [List.append_assoc, List.mem_append, List.mem_singleton] at hd
    rcases hd with h | h | h
    · exact h
    · exact absurd h (by simp)
    · obtain ⟨ls, ok, he⟩ := hadds _ h
      exact absurd he (by simp)
  · intro t d hd
    rw [hcore] at hd
    simp only at hd
    rw [hlog] at hd
    simp only [List.append_assoc, List.mem_append, List.mem_singleton] at hd
    rcases hd with h | h | h
    · exact Or.inl h
    · injection h with h1 h2
      exact Or.inr ⟨h1, h2⟩
    · obtain ⟨ls, ok, he⟩ := hadds _ h
      exact absurd he (by simp)

theorem c2_zero_issue_aborts_witness :
    ((phaseOf envReject7 false ["A"] [] order7 stU).total = 0 ∧ order7.products ≠ []) ∧
      (transferCore envReject7 (some "5") none "D" ["A"] [] false stU).1.status = 400 :=
  ⟨⟨by decide, by decide⟩,
    (c2_zero_issue_aborts Unit envReject7 (some "5") none "D" ["A"] [] false stU "5" order7
      rfl rfl (by decide) (by decide) (by decide)).1⟩

/-- Phase B always creates the receipt draft and passes exactly the
receipt lines of the issue phase to the single line-add call. -/
theorem receiptPhase_effects (E : Env σ) (dst : String) (igi : Nat) (ps : PhaseSt σ)
    (missing : List MissingRec) (srcs skus : List String) (prefer : Bool) :
    ∃ ok,
      Effect.create 1 ps.st.nextDoc
          ∈ (receiptPhase E dst igi ps missing srcs skus prefer).2.log ∧
      Effect.add ps.st.nextDoc (receiptLines ps.issued dst) ok
          ∈ (receiptPhase E dst igi ps missing srcs skus prefer).2.log := by
  refine ⟨(E.addCall ps.st.plat ps.st.nextDoc (receiptLines ps.issued dst)).1, ?_, ?_⟩ <;>
  · simp only [receiptPhase]
    split <;>
      simp [add_items_verbose, create_document, confirm_document, List.mem_append]

/-- C1: whenever the relocation core reaches the receipt phase, the
receipt lines are exactly one line per product with positive accumulated
issued quantity, each carrying that accumulated quantity — bounded by the
requested quantity, so never the original request when issuance was
partial — and tagged with the destination name; and the core's final
effect log indeed contains the creation of the receipt (type-1) document
and the single add call passing exactly those lines. -/
theorem c1_issue_receipt_conservation (σ : Type) (E : Env σ) (oidp onum : Option String)
    (dst : String) (srcs onlys : List String) (prefer : Bool) (st : St σ)
    (oid : String) (order : BLOrder)
    (hres : resolve_order_id E oidp onum = .ok oid)
    (hord : get_order_by_id_strict E oid = .ok order)
    (hprod : order.products ≠ [])
    (hbase : (collectLines E onlys order.products).1 ≠ [])
    (hq : ∀ ls ∈ (collectLines E onlys order.products).1, 0 ≤ ls.qty)
    (htot : (phaseOf E prefer srcs onlys order st).total ≠ 0) :
    (∀ pid, (receiptLines (phaseOf E prefer srcs onlys order st).issued dst).filter
        (fun l => l.product_id = pid)
      = if 0 < getA (phaseOf E prefer srcs onlys order st).issued pid then
          [{ product_id := pid,
             quantity := getA (phaseOf E prefer srcs onlys order st).issued pid,
             location_name := some dst }]
        else []) ∧
    (∀ l ∈ receiptLines (phaseOf E prefer srcs onlys order st).issued dst,
      l.quantity = getA (phaseOf E prefer srcs onlys order st).issued l.product_id ∧
        0 < l.quantity ∧ l.location_name = some dst) ∧
    (∀ pid, getA (phaseOf E prefer srcs onlys order st).issued pid
      ≤ requestedFor (collectLines E onlys order.products).1 pid) ∧
    (∃ igr ok,
      Effect.create 1 igr ∈ (transferCore E oidp onum dst srcs onlys prefer st).2.log ∧
      Effect.add igr (receiptLines (phaseOf E prefer srcs onlys order st).issued dst) ok
        ∈ (transferCore E oidp onum dst srcs onlys prefer st).2.log) := by
  rcases hC : collectLines E onlys order.products with ⟨bs, ms, ss⟩
  have hbase' : bs ≠ [] := by
    rw [hC] at hbase
    simpa using hbase
  have hq' : ∀ ls ∈ bs, 0 ≤ ls.qty := by
    intro ls hls
    have := hq ls
    rw [hC] at this
    exact this hls
  have hphase : phaseOf E prefer srcs onlys order st
      = issuePhase E prefer srcs st.nextDoc bs
          { issued := [], total := 0, fails := [], modes := [],
            st := { plat := st.plat, nextDoc := st.nextDoc + 1,
                    log := st.log ++ [Effect.create 3 st.nextDoc] } } := by
    unfold phaseOf
    rw [hC]
    rfl
  have hspec := issuePhase_spec E prefer srcs st.nextDoc bs
    { issued := [], total := 0, fails := [], modes := [],
      st := { plat := st.plat, nextDoc := st.nextDoc + 1,
              log := st.log ++ [Effect.create 3 st.nextDoc] } } hq'
  have hnodup : (((phaseOf E prefer srcs onlys order st).issued).map Prod.fst).Nodup := by
    rw [hphase]
    exact hspec.2.2.1 (by simp)
  have hpos : ∀ pq ∈ (phaseOf E prefer srcs onlys order st).issued, 0 < pq.2 := by
    rw [hphase]
    exact hspec.2.2.2 (by simp)
  refine ⟨?_, ?_, ?_, ?_⟩
  · intro pid
    exact receiptLines_filter _ dst pid hnodup hpos
  · intro l hl
    obtain ⟨pq, hmem, hp2, hleq⟩ := receiptLines_mem hl
    subst hleq
    refine ⟨?_, hp2, rfl⟩
    simp only
    exact (getA_of_mem_nodup hnodup hmem).symm
  · intro pid
    rw [hphase]
    have h := hspec.2.1 pid
    simpa [getA] using h
  · have htot2 : ¬ (issuePhase E prefer srcs st.nextDoc bs
        { issued := [], total := 0, fails := [], modes := [],
          st := { plat := st.plat, nextDoc := st.nextDoc + 1,
                  log := st.log ++ [Effect.create 3 st.nextDoc] } }).total = 0 := by
      rw [hphase] at htot
      exact htot
    have hcore : transferCore E oidp onum dst srcs onlys prefer st
        = receiptPhase E dst st.nextDoc
            (issuePhase E prefer srcs st.nextDoc bs
              { issued := [], total := 0, fails := [], modes := [],
                st := { plat := st.plat, nextDoc := st.nextDoc + 1,
                        log := st.log ++ [Effect.create 3 st.nextDoc] } })
            ms srcs ss prefer := by
      simp only [transferCore, hres, hord, hC, create_document]
      rw [if_neg hprod, if_neg hbase', if_neg htot2]
    rw [hphase, hcore]
    obtain ⟨ok, h1, h2⟩ := receiptPhase_effects E dst st.nextDoc
      (issuePhase E prefer srcs st.nextDoc bs
        { issued := [], total := 0, fails := [], modes := [],
          st := { plat := st.plat, nextDoc := st.nextDoc + 1,
                  log := st.log ++ [Effect.create 3 st.nextDoc] } })
      ms srcs ss prefer
    exact ⟨_, ok, h1, h2⟩

theorem c1_issue_receipt_conservation_witness :
    ((phaseOf envAccept false ["A"] [] order5 stU).total ≠ 0 ∧
      ∀ ls ∈ (collectLines envAccept [] order5.products).1, 0 ≤ ls.qty) ∧
      (receiptLines (phaseOf envAccept false ["A"] [] order5 stU).issued "D").filter
          (fun l => l.product_id = 101)
        = (if 0 < getA (phaseOf envAccept false ["A"] [] order5 stU).issued 101 then
            [{ product_id := 101,
               quantity := getA (phaseOf envAccept false ["A"] [] order5 stU).issued 101,
               location_name := some "D" }]
          else []) :=
  ⟨⟨by decide, by decide⟩,
    (c1_issue_receipt_conservation Unit envAccept (some "5") none "D" ["A"] [] false stU
      "5" order5 rfl rfl (by decide) (by decide) (by decide) (by decide)).1 101⟩

/-! ## Claim C3 -/

/-- C3 counterexample: a requested quantity of 7 with the halving-mode
flag set, no ERP units and a platform that rejects every add.  The line
cannot be placed whole (the request ends in 400 with nothing issued), yet
the complete effect log shows only quantity-7 attempts — quantity 3 is
never attempted: there is no halving ladder in the code, the flag is
parsed and discarded. -/
theorem c3_counterexample :
    (transfer_order_qty_catalog envReject7 "" q7 stU).1.status = 400 ∧
    (transfer_order_qty_catalog envReject7 "" q7 stU).2.log =
      [Effect.create 3 1,
       Effect.add 1 [{ product_id := 101, quantity := 7, location_name := some "A" }] false,
       Effect.add 1 [{ product_id := 101, quantity := 7 }] false] := by
  decide

/-- C3 amended: the halving-mode query flag has no effect whatsoever on
the endpoint (its raw value can be replaced arbitrarily without changing
the response or the effect log), and the per-line issue step never issues
more than the originally requested quantity (and never a negative
amount). -/
theorem c3_amended :
    (∀ (σ : Type) (E : Env σ) (sharedKey : String) (q : Query) (st : St σ)
        (x : Option String),
      transfer_order_qty_catalog E sharedKey { q with partRaw := x } st
        = transfer_order_qty_catalog E sharedKey q st) ∧
    (∀ (σ : Type) (E : Env σ) (prefer : Bool) (srcs : List String) (igi : Nat)
        (ls : LineSpec) (ps : PhaseSt σ), 0 ≤ ls.qty →
      ps.total ≤ (runLine E prefer srcs igi ls ps).total ∧
      (runLine E prefer srcs igi ls ps).total ≤ ps.total + ls.qty) := by
  constructor
  · intro σ E k q st x
    rfl
  · intro σ E prefer srcs igi ls ps hq
    have h := runLine_spec E prefer srcs igi ls ps
    have h2 := h.2.1
    rw [max_eq_left hq] at h2
    exact ⟨h.1, h2⟩

theorem c3_amended_witness :
    (0 : Int) ≤ (5 : Int) ∧
      ({ issued := [], total := 0, fails := [], modes := [], st := stU } : PhaseSt Unit).total
        ≤ (runLine acceptEnv0 false [] 1 { sku := "X", product_id := 1, qty := 5 }
            { issued := [], total := 0, fails := [], modes := [], st := stU }).total :=
  ⟨by decide,
    (c3_amended.2 Unit acceptEnv0 false [] 1 { sku := "X", product_id := 1, qty := 5 }
      { issued := [], total := 0, fails := [], modes := [], st := stU } (by decide)).1⟩

/-! ## Claim C4 -/

/-- C4 counterexample: order quantity 5, halving flag set, bins A (3
units) and B (2 units).  The run ends in 400 with no success payload —
the claimed total of 5 moved units and a quantity-5 receipt line do not
happen. -/
theorem c4_counterexample :
    (transfer_order_qty_catalog envBins "" q45 stBins).1.status = 400 ∧
    (transfer_order_qty_catalog envBins "" q45 stBins).1.payload = none := by
  decide

/-- C4 amended: in that scenario the issue phase attempts bin A and then
bin B, each with the full remaining quantity 5 (no smaller quantity is
ever tried), then the unallocated fallback, all rejected; zero units are
issued, the request fails with 400, and no receipt document is created —
the complete effect log is exactly the three rejected attempts after the
issue-draft creation. -/
theorem c4_amended :
    (transfer_order_qty_catalog envBins "" q45 stBins).1.status = 400 ∧
    (transfer_order_qty_catalog envBins "" q45 stBins).2.log =
      [Effect.create 3 1,
       Effect.add 1 [{ product_id := 101, quantity := 5, location_name := some "A" }] false,
       Effect.add 1 [{ product_id := 101, quantity := 5, location_name := some "B" }] false,
       Effect.add 1 [{ product_id := 101, quantity := 5 }] false] := by
  decide

/-! ## Claim C8 -/

/-- The batch-attribute tag carried by a document line. -/
def lineTag (l : Line) : Option String × Option ℚ × Option String :=
  (l.expiry_date, l.price, l.batch)

/-- The batch-attribute tag a unit imposes on its lines (after the Python
truthiness filtering of `build_erp_line_base`). -/
def unitTag (u : ErpUnit) : Option String × Option ℚ × Option String :=
  (if truthyS u.attrs.expiry_date then u.attrs.expiry_date else none,
   u.attrs.price,
   if truthyS u.attrs.batch then u.attrs.batch else none)

theorem expKey_undated {u : ErpUnit} (h : truthyS u.attrs.expiry_date = false) :
    expKey u = "9999-12-31" := by
  rcases he : u.attrs.expiry_date with _ | s
  · simp [expKey, he]
  · rw [he] at h
    simp only [truthyS, decide_eq_false_iff_not, not_not] at h
    simp [expKey, he, h]

/-- Trace discipline of the ERP-unit walk: at most one rejected attempt
and only as the final one, the attempted tags follow the queue order (an
order-preserving selection), the moved total is the sum of the accepted
quantities, and every attempt is positive and bounded by the remaining
need at its time (hence by the initial need). -/
theorem erpWalk_trace (E : Env σ) (igi : Nat) (pid : Int) (bin : Option String) :
    ∀ (us : List ErpUnit) (r : Int) (st : St σ),
      (((erpWalk E igi pid bin us r st).2.2.filter (fun lb => lb.2 = false)).length ≤ 1) ∧
      (∀ lb ∈ (erpWalk E igi pid bin us r st).2.2.dropLast, lb.2 = true) ∧
      (((erpWalk E igi pid bin us r st).2.2.map (fun lb => lineTag lb.1)).Sublist
        (us.map unitTag)) ∧
      ((erpWalk E igi pid bin us r st).1 =
        (((erpWalk E igi pid bin us r st).2.2.filter (fun lb => lb.2 = true)).map
          (fun lb => lb.1.quantity)).sum) ∧
      (∀ lb ∈ (erpWalk E igi pid bin us r st).2.2, 0 < lb.1.quantity ∧ lb.1.quantity ≤ r)
  | [], r, st => by
    simp [erpWalk]
  | u :: us, r, st => by
    by_cases hr : r ≤ 0
    · simp only [erpWalk, if_pos hr]
      simp
    · simp only [erpWalk, if_neg hr]
      by_cases ht : min r u.qty ≤ 0
      · rw [if_pos ht]
        have ih := erpWalk_trace E igi pid bin us r st
        exact ⟨ih.1, ih.2.1, ih.2.2.1.cons (unitTag u), ih.2.2.2.1, ih.2.2.2.2⟩
      · rw [if_neg ht]
        rcases hA : add_items_verbose E igi
            [build_erp_line_base pid (min r u.qty) (some u.attrs) bin] st with ⟨ok, st1⟩
        cases ok
        · simp only [show (((false, st1) : Bool × St σ).1 = true) = False by simp, if_false]
          simp only [List.filter_cons, List.dropLast_single, List.map_cons, List.map_nil]
          refine ⟨by simp, by simp, ?_, by simp, ?_⟩
          · exact List.Sublist.cons₂ _ (List.nil_sublist _)
          · intro lb hlb
            rcases List.mem_singleton.mp hlb with rfl
            exact (show 0 < min r u.qty ∧ min r u.qty ≤ r by omega)
        · simp only [show (((true, st1) : Bool × St σ).1 = true) = True by simp, if_true]
          rcases h3 : erpWalk E igi pid bin us (r - min r u.qty) st1 with ⟨m, st2, tr⟩
          have ih := erpWalk_trace E igi pid bin us (r - min r u.qty) st1
          rw [h3] at ih
          simp only at ih ⊢
          refine ⟨?_, ?_, ?_, ?_, ?_⟩
          · simpa using ih.1
          · intro lb hlb
            rcases tr with _ | ⟨t0, tr'⟩
            · simp at hlb
            · rcases List.mem_cons.mp (by
                simpa [List.dropLast] using hlb) with rfl | hm
              · rfl
              · exact ih.2.1 lb (by simpa using hm)
          · exact List.Sublist.cons₂ _ ih.2.2.1
          · have hsum := ih.2.2.2.1
            rw [List.filter_cons_of_pos (by simp), List.map_cons, List.sum_cons, hsum]
            simp [build_erp_line_base]
          · intro lb hlb
            rcases List.mem_cons.mp hlb with rfl | hm
            · exact (show 0 < min r u.qty ∧ min r u.qty ≤ r by omega)
            · have := ih.2.2.2.2 lb hm
              omega

/-- The shape of the unallocated issuance when the product has no ERP
units: one single-line add for the full quantity, tagged with the most
recent IGR attributes when they exist (otherwise plain), followed at most
by the plain retry — every line is for the product and the full quantity. -/
theorem issue_unalloc_fallback_shape (E : Env σ) (pid qty : Int) (igi : Nat) (st : St σ)
    (hu : get_erp_units_for_product E pid = []) :
    ∃ ext, (issue_unallocated E pid qty igi st).2.2.2.log = st.log ++ ext ∧
      (∀ e ∈ ext, ∃ l ok, e = Effect.add igi [l] ok ∧ l.product_id = pid ∧
        l.quantity = qty) ∧
      ∃ ok rest, ext = Effect.add igi
          [build_erp_line_base pid qty (fetch_last_igr_unit E pid) none] ok :: rest := by
  simp only [issue_unallocated, if_pos hu, unallocFallback]
  rcases hL : fetch_last_igr_unit E pid with _ | last
  · simp only [unallocPlain]
    rcases hA : add_items_verbose E igi [{ product_id := pid, quantity := qty }] st
      with ⟨ok, st1⟩
    have hok : (add_items_verbose E igi [{ product_id := pid, quantity := qty }] st).1
        = ok := by rw [hA]
    have h1 : st1.log
        = st.log ++ [Effect.add igi [{ product_id := pid, quantity := qty }] ok] := by
      rw [show st1 = (add_items_verbose E igi
        [{ product_id := pid, quantity := qty }] st).2 from by rw [hA], ← hok]
      rfl
    have hplain : ({ product_id := pid, quantity := qty } : Line)
        = build_erp_line_base pid qty none none := rfl
    cases ok
    · refine ⟨[Effect.add igi [{ product_id := pid, quantity := qty }] false], h1, ?_, ?_⟩
      · intro e he
        rcases List.mem_singleton.mp he with rfl
        exact ⟨_, false, rfl, rfl, rfl⟩
      · exact ⟨false, [], by rw [← hplain]⟩
    · refine ⟨[Effect.add igi [{ product_id := pid, quantity := qty }] true], h1, ?_, ?_⟩
      · intro e he
        rcases List.mem_singleton.mp he with rfl
        exact ⟨_, true, rfl, rfl, rfl⟩
      · exact ⟨true, [], by rw [← hplain]⟩
  · simp only
    rcases hA : add_items_verbose E igi [build_erp_line_base pid qty (some last) none] st
      with ⟨ok, st1⟩
    have hok : (add_items_verbose E igi
        [build_erp_line_base pid qty (some last) none] st).1 = ok := by rw [hA]
    have h1 : st1.log = st.log
        ++ [Effect.add igi [build_erp_line_base pid qty (some last) none] ok] := by
      rw [show st1 = (add_items_verbose E igi
        [build_erp_line_base pid qty (some last) none] st).2 from by rw [hA], ← hok]
      rfl
    cases ok
    · simp only [show (((false, st1) : Bool × St σ).1 = true) = False by simp, if_false,
        unallocPlain]
      rcases hA2 : add_items_verbose E igi [{ product_id := pid, quantity := qty }] st1
        with ⟨ok2, st2⟩
      have hok2 : (add_items_verbose E igi
          [{ product_id := pid, quantity := qty }] st1).1 = ok2 := by rw [hA2]
      have h2 : st2.log = st1.log
          ++ [Effect.add igi [{ product_id := pid, quantity := qty }] ok2] := by
        rw [show st2 = (add_items_verbose E igi
          [{ product_id := pid, quantity := qty }] st1).2 from by rw [hA2], ← hok2]
        rfl
      have hlog : st2.log = st.log
          ++ [Effect.add igi [build_erp_line_base pid qty (some last) none] false,
              Effect.add igi [{ product_id := pid, quantity := qty }] ok2] := by
        rw [h2, h1]
        simp
      cases ok2
      · refine ⟨_, hlog, ?_, ?_⟩
        · intro e he
          rcases List.mem_cons.mp he with rfl | he2
          · exact ⟨_, false, rfl, rfl, rfl⟩
          · rcases List.mem_singleton.mp he2 with rfl
            exact ⟨_, false, rfl, rfl, rfl⟩
        · exact ⟨false, _, rfl⟩
      · refine ⟨_, hlog, ?_, ?_⟩
        · intro e he
          rcases List.mem_cons.mp he with rfl | he2
          · exact ⟨_, false, rfl, rfl, rfl⟩
          · rcases List.mem_singleton.mp he2 with rfl
            exact ⟨_, true, rfl, rfl, rfl⟩
        · exact ⟨false, _, rfl⟩
    · simp only [show (((true, st1) : Bool × St σ).1 = true) = True by simp, if_true]
      refine ⟨[Effect.add igi [build_erp_line_base pid qty (some last) none] true],
        h1, ?_, ?_⟩
      · intro e he
        rcases List.mem_singleton.mp he with rfl
        exact ⟨_, true, rfl, rfl, rfl⟩
      · exact ⟨true, [], rfl⟩

/-- C8: batch-unit-aware unallocated issuance is FEFO.  The unit queue is
sorted ascending by expiry key (missing dates completed to the sentinel
9999-12-31, hence — for real dates below the sentinel — undated units
after all dated ones) and is a permutation of the normalised raw units;
the walk draws min(remaining, unit quantity) per step and stops at the
first rejected add or once the quantity is drawn (step equations, at most
one trailing rejection, queue-ordered tags, accepted-sum accounting);
and when no ERP units exist, a last-IGR-tagged or plain unallocated line
for the full quantity is attempted instead. -/
theorem c8_fefo_unallocated (σ : Type) (E : Env σ) (pid qty : Int) (igi : Nat)
    (st : St σ)
    (hdate : ∀ u ∈ get_erp_units_for_product E pid,
      truthyS u.attrs.expiry_date = true → strLt (expKey u) ("9999-12-31") = true) :
    (get_erp_units_for_product E pid).Pairwise
        (fun a b => strLe (expKey a) (expKey b) = true) ∧
    (get_erp_units_for_product E pid).Perm ((E.erpUnitsRaw pid).map normUnit) ∧
    (get_erp_units_for_product E pid).Pairwise
        (fun a b => truthyS a.attrs.expiry_date = false →
          truthyS b.attrs.expiry_date = false) ∧
    (∀ (us : List ErpUnit) (r : Int) (st' : St σ), r ≤ 0 →
      erpWalk E igi pid none us r st' = (0, st', [])) ∧
    (∀ (u : ErpUnit) (us : List ErpUnit) (r : Int) (st' : St σ),
      0 < r → 0 < min r u.qty →
      erpWalk E igi pid none (u :: us) r st' =
        (let line := build_erp_line_base pid (min r u.qty) (some u.attrs) none
         let res := add_items_verbose E igi [line] st'
         if res.1 then
           let rec1 := erpWalk E igi pid none us (r - min r u.qty) res.2
           (min r u.qty + rec1.1, rec1.2.1, (line, true) :: rec1.2.2)
         else (0, res.2, [(line, false)]))) ∧
    (∀ (us : List ErpUnit) (r : Int) (st' : St σ),
      (((erpWalk E igi pid none us r st').2.2.filter
          (fun lb => lb.2 = false)).length ≤ 1) ∧
      (∀ lb ∈ (erpWalk E igi pid none us r st').2.2.dropLast, lb.2 = true) ∧
      (((erpWalk E igi pid none us r st').2.2.map (fun lb => lineTag lb.1)).Sublist
        (us.map unitTag)) ∧
      ((erpWalk E igi pid none us r st').1 =
        (((erpWalk E igi pid none us r st').2.2.filter (fun lb => lb.2 = true)).map
          (fun lb => lb.1.quantity)).sum) ∧
      (∀ lb ∈ (erpWalk E igi pid none us r st').2.2,
        0 < lb.1.quantity ∧ lb.1.quantity ≤ r)) ∧
    (get_erp_units_for_product E pid = [] →
      ∃ ext, (issue_unallocated E pid qty igi st).2.2.2.log = st.log ++ ext ∧
        (∀ e ∈ ext, ∃ l ok, e = Effect.add igi [l] ok ∧ l.product_id = pid ∧
          l.quantity = qty) ∧
        ∃ ok rest, ext = Effect.add igi
            [build_erp_line_base pid qty (fetch_last_igr_unit E pid) none] ok :: rest) := by
  haveI instTr : IsTrans ErpUnit (fun a b => strLe (expKey a) (expKey b) = true) :=
    ⟨fun _ _ _ => strLe_trans⟩
  haveI instTot : IsTotal ErpUnit (fun a b => strLe (expKey a) (expKey b) = true) :=
    ⟨fun a b => strLe_total (expKey a) (expKey b)⟩
  have hsorted : (get_erp_units_for_product E pid).Pairwise
      (fun a b => strLe (expKey a) (expKey b) = true) :=
    List.sorted_insertionSort _ _
  refine ⟨hsorted, List.perm_insertionSort _ _, ?_, ?_, ?_,
    erpWalk_trace E igi pid none, issue_unalloc_fallback_shape E pid qty igi st⟩
  · refine hsorted.imp_of_mem ?_
    intro a b ha hb hle hun
    by_cases hb' : truthyS b.attrs.expiry_date = true
    · have hlt := hdate b hb hb'
      simp only [strLt, Bool.and_eq_true, decide_eq_true_eq] at hlt
      rw [expKey_undated hun] at hle
      exact absurd (strLe_antisymm hlt.1 hle) hlt.2
    · simpa using hb'
  · intro us r st' hr
    rcases us with _ | ⟨u, us⟩
    · simp [erpWalk]
    · simp [erpWalk, if_pos hr]
  · intro u us r st' hr ht
    simp only [erpWalk, if_neg (by omega : ¬ r ≤ 0), if_neg (by omega : ¬ min r u.qty ≤ 0)]

theorem c8_fefo_unallocated_witness :
    (∀ u ∈ get_erp_units_for_product envErp 101,
      truthyS u.attrs.expiry_date = true → strLt (expKey u) ("9999-12-31") = true) ∧
      (get_erp_units_for_product envErp 101).Pairwise
        (fun a b => strLe (expKey a) (expKey b) = true) :=
  ⟨by decide,
    (c8_fefo_unallocated Unit envErp 101 7 1 stU (by decide)).1⟩

theorem c7_amended_witness :
    (truthyS (some "42") = true ∧ resolve_order_id envTie none (some "42") = .ok "2") ∧
      ((∃ m ∈ collectMatches envTie (pyStrip ((some "42" : Option String).getD "")) 300 1,
        m.order_id = "2" ∧
        ∀ m' ∈ collectMatches envTie (pyStrip ((some "42" : Option String).getD "")) 300 1,
          keyLe (orderSortKey m') (orderSortKey m) = true) ∧
      (∀ g : BLOrder → Option Int,
        resolve_order_id (confMap g envTie) none (some "42")
          = resolve_order_id envTie none (some "42"))) :=
  ⟨⟨by decide, rfl⟩, c7_amended Unit envTie (some "42") "2" (by decide) rfl⟩

end BLApp
